import Mathlib

/-!
A shallow embedding, in Lean 4, of the core of a tree-walking Lox
interpreter written in Rust (scanner, parser, resolver, environments,
runtime objects and the evaluator), together with theorems settling a
list of claims about it.

Conventions of the embedding:
* Rust `HashMap<String, V>` becomes an association list `List (String × V)`
  whose `insert` overwrites the first matching key (`HashMap::insert`
  semantics) and whose lookup returns the first match.
* Shared mutable environments (`Rc<RefCell<Environment>>`) become integer
  indices into an explicit heap `List Env`; mutation is heap update.
* Lox numbers (`f64`) are modelled as `ℚ` (exact rationals; the model has
  no NaN or infinities).
* Panics (`unwrap`) surface as `Option.none` results, and functions whose
  Rust originals are statements with side effects return their new state
  explicitly.
* Recursive descent and tree walking that Lean cannot see terminate are
  given an explicit fuel parameter; running out of fuel yields a
  distinguished result that the theorems either quantify over or avoid by
  choosing enough fuel.
-/

namespace Jlox

/-- Modelled from the spec: `token.rs` is absent from the sources; §3 of the
spec gives the closed enumeration of token kinds (punctuation, one-or-two
character operators, literals, keywords, `Eof`). -/
inductive TokenType where
  | LeftParen | RightParen | LeftBrace | RightBrace
  | Comma | Dot | Minus | Plus | Semicolon | Slash | Star
  | Bang | BangEqual | Equal | EqualEqual
  | Greater | GreaterEqual | Less | LessEqual
  | Identifier | String | Number
  | And | Class | Else | False | Fun | For | If | Nil | Or | Print
  | Return | Super | This | True | Var | While
  | Eof
  deriving DecidableEq, Repr

/-- Modelled from the spec: `token.rs` is absent from the sources; §3 gives
`literal ∈ \x7bNone, Str(text), Num(f64), True, False, Nil\x7d` (the parser
synthesises `True/False/Nil` from keyword tokens). Numbers are modelled
as `ℚ`. -/
inductive Literal where
  | None
  | String (s : String)
  | Number (n : ℚ)
  | True
  | False
  | Nil
  deriving DecidableEq, Repr

/-- Modelled from the spec: `token.rs` is absent from the sources; §3 gives
`Token = \x7b kind, lexeme, literal, line, column? \x7d`. The scanner in
`scanner.rs` builds tokens without a column (it defaults to 0), while
`callable.rs` constructs tokens with an explicit column. -/
structure Token where
  token_type : TokenType
  lexeme : String
  literal : Literal
  line : Nat
  column : Nat := 0
  deriving DecidableEq, Repr

/-- `Token::new` as used by `callable.rs` (token type, lexeme, literal,
line, column). -/
def Token.new (token_type : TokenType) (lexeme : String) (literal : Literal)
    (line : Nat) (column : Nat) : Token :=
  { token_type, lexeme, literal, line, column }

/-- The expression AST of `parser.rs` (`enum Expr`): `Logical`, `Binary`,
`Call`, `Grouping`, `Literal`, `Unary`, `Variable`, `Assign`.
(The resolver source also pattern-matches `Get`/`Set` variants from a later
revision of the parser; those constructors do not exist in the `parser.rs`
in the sources and are not modelled.) -/
inductive Expr where
  | Logical (left : Expr) (operator : Token) (right : Expr)
  | Binary (left : Expr) (operator : Token) (right : Expr)
  | Call (callee : Expr) (paren : Token) (arguments : List Expr)
  | Grouping (expr : Expr)
  | Literal (lit : Literal)
  | Unary (operator : Token) (right : Expr)
  | Variable (name : Token)
  | Assign (name : Token) (value : Expr)
  deriving Repr

/-- The statement AST of `parser.rs` (`enum Stmt`). -/
inductive Stmt where
  | Block (statements : List Stmt)
  | If (condition : Expr) (then_branch : Stmt) (else_branch : Option Stmt)
  | Expression (expr : Expr)
  | Function (name : Token) (parameters : List Token) (body : List Stmt)
  | Print (expr : Expr)
  | Return (keyword : Token) (value : Option Expr)
  | Var (name : String) (initializer : Option Expr)
  | While (condition : Expr) (body : Stmt)
  deriving Repr

mutual

/-- Structural equality on expressions: the Rust `Expr` derives `PartialEq`
(required for `HashMap<Expr, usize>` in `interpreter.rs`), which compares
all fields structurally. -/
def Expr.beq : Expr → Expr → Bool
  | .Logical l1 o1 r1, .Logical l2 o2 r2 => l1.beq l2 && o1 == o2 && r1.beq r2
  | .Binary l1 o1 r1, .Binary l2 o2 r2 => l1.beq l2 && o1 == o2 && r1.beq r2
  | .Call c1 p1 a1, .Call c2 p2 a2 => c1.beq c2 && p1 == p2 && Expr.beqList a1 a2
  | .Grouping e1, .Grouping e2 => e1.beq e2
  | .Literal v1, .Literal v2 => v1 == v2
  | .Unary o1 r1, .Unary o2 r2 => o1 == o2 && r1.beq r2
  | .Variable n1, .Variable n2 => n1 == n2
  | .Assign n1 v1, .Assign n2 v2 => n1 == n2 && v1.beq v2
  | _, _ => false

/-- Pointwise structural equality of argument lists (the derived
`PartialEq` on `Vec<Expr>`). -/
def Expr.beqList : List Expr → List Expr → Bool
  | [], [] => true
  | x :: xs, y :: ys => x.beq y && Expr.beqList xs ys
  | _, _ => false

end

instance : BEq Expr := ⟨Expr.beq⟩

/-! ## Runtime values (`object.rs`, `callable.rs`, `lox_class.rs`,
`lox_instance.rs`)

Shared mutable environments (`Rc<RefCell<Environment>>`) are modelled as
indices (`Nat`) into an explicit heap (`List Env`). A function value's
`closure` field is such an index. -/

/-- `LoxFunction` from `callable.rs`: name, parameters, body, closure
(a heap index standing for `Rc<RefCell<Environment>>`), `is_initializer`.
-/
structure LoxFunction where
  name : String
  parameters : List Token
  body : List Stmt
  closure : Nat
  is_initializer : Bool
  deriving Repr

/-- `LoxClass` from `lox_class.rs`: a name and a method table
(`HashMap<String, LoxFunction>` modelled as an association list). -/
structure LoxClass where
  name : String
  methods : List (String × LoxFunction)
  deriving Repr

/-- The implementors of the `Callable` trait that can sit inside
`Object::Callable(Box<dyn Callable>)`: the native `Clock`, a
`LoxFunction`, or a `LoxClass`. -/
inductive CallableObj where
  | Clock
  | Function (f : LoxFunction)
  | Klass (k : LoxClass)
  deriving Repr

/-- The model of Rust's `f64` (IEEE 754 binary64) used for
`Object::Number`: finite values are kept exactly as rationals (rounding
and overflow of finite arithmetic are not modelled), plus the two
infinities and NaN. Signed zero is not distinguished (a single unsigned
zero; nothing the claims observe depends on it). -/
inductive F64 where
  | finite (q : ℚ)
  | inf (neg : Bool)
  | nan
  deriving DecidableEq, Repr

instance (n : Nat) : OfNat F64 n := ⟨.finite (OfNat.ofNat n)⟩

/-- IEEE 754 negation: flips the sign of a finite value or an infinity;
NaN stays NaN. -/
def F64.neg : F64 → F64
  | .finite q => .finite (-q)
  | .inf s => .inf (!s)
  | .nan => .nan

/-- IEEE 754 addition: NaN propagates, opposite infinities give NaN, an
infinity absorbs finite values, finite addition is exact. -/
def F64.add : F64 → F64 → F64
  | .nan, _ => .nan
  | _, .nan => .nan
  | .finite l, .finite r => .finite (l + r)
  | .inf s, .finite _ => .inf s
  | .finite _, .inf s => .inf s
  | .inf s, .inf t => if s == t then .inf s else .nan

/-- IEEE 754 subtraction (`x - y = x + (-y)`). -/
def F64.sub (a b : F64) : F64 := F64.add a (F64.neg b)

/-- IEEE 754 multiplication: NaN propagates, `inf * 0` is NaN, an
infinity times a nonzero value is an infinity with the xor of the signs,
finite multiplication is exact. -/
def F64.mul : F64 → F64 → F64
  | .nan, _ => .nan
  | _, .nan => .nan
  | .finite l, .finite r => .finite (l * r)
  | .inf s, .finite q => if q == 0 then .nan else .inf (s != decide (q < 0))
  | .finite q, .inf s => if q == 0 then .nan else .inf (decide (q < 0) != s)
  | .inf s, .inf t => .inf (s != t)

/-- IEEE 754 division: NaN propagates, `0/0` and `inf/inf` are NaN, a
nonzero finite value over zero is a (signed) infinity, an infinity over a
finite value is an infinity, a finite value over an infinity is zero,
finite division is exact. (The divisor zero is the model's unsigned
zero, taken positive.) -/
def F64.div : F64 → F64 → F64
  | .nan, _ => .nan
  | _, .nan => .nan
  | .finite l, .finite r =>
    if r == 0 then
      if l == 0 then .nan else .inf (decide (l < 0))
    else .finite (l / r)
  | .inf s, .finite q => .inf (s != decide (q < 0))
  | .finite _, .inf _ => .finite 0
  | .inf _, .inf _ => .nan

/-- `f64::partial_cmp`: `None` when either operand is NaN, otherwise the
total order with `-inf` below all finite values and `+inf` above them. -/
def F64.pcmp : F64 → F64 → Option Ordering
  | .nan, _ => none
  | _, .nan => none
  | .finite l, .finite r => some (compare l r)
  | .inf s, .inf t => some (if s == t then .eq else if s then .lt else .gt)
  | .inf s, .finite _ => some (if s then .lt else .gt)
  | .finite _, .inf t => some (if t then .gt else .lt)

/-- `f64::eq` (IEEE `==`): NaN is unequal to everything, including
itself; otherwise equality of the values. -/
def F64.beq : F64 → F64 → Bool
  | .nan, _ => false
  | _, .nan => false
  | .finite l, .finite r => l == r
  | .inf l, .inf r => l == r
  | _, _ => false

/-- `f64`'s `Display`, abbreviated by the `ℚ` rendering for finite
values; Rust prints "NaN", "inf" and "-inf" for the non-finite ones. -/
def F64.display : F64 → String
  | .finite q => toString q
  | .inf false => "inf"
  | .inf true => "-inf"
  | .nan => "NaN"

mutual

/-- `enum Object` from `object.rs`: `Nil`, `Boolean`, `Number` (an `f64`,
modelled by `F64`), `String`, `Callable`; plus the `Instance` variant used
by `callable.rs` and `lox_class.rs` (`Object::Instance(RefCell<LoxInstance>)`,
a by-value cell, so instances are modelled by value). -/
inductive Obj where
  | Nil
  | Boolean (b : Bool)
  | Number (n : F64)
  | Str (s : String)
  | Callable (c : CallableObj)
  | Instance (i : LoxInstance)

/-- `LoxInstance` from `lox_instance.rs`: its class and a field map. -/
inductive LoxInstance where
  | mk (klass : LoxClass) (fields : List (String × Obj))

end

/-- The class of a `LoxInstance`. -/
def LoxInstance.klass : LoxInstance → LoxClass
  | .mk k _ => k

/-- The field map of a `LoxInstance`. -/
def LoxInstance.fields : LoxInstance → List (String × Obj)
  | .mk _ f => f

/-- `Object::is_truthy`: `false` and `nil` are falsy, all else truthy. -/
def Obj.is_truthy : Obj → Bool
  | .Boolean val => val
  | .Nil => false
  | _ => true

/-- The `AsNumbers` helper trait of `object.rs`: both operands as numbers
(any `f64`, NaN included), or `None`. -/
def Obj.as_numbers : Obj → Obj → Option (F64 × F64)
  | .Number left, .Number right => some (left, right)
  | _, _ => none

/-- `impl Add for &Object`: number addition or string concatenation. -/
def Obj.add : Obj → Obj → Option Obj
  | .Number left, .Number right => some (.Number (F64.add left right))
  | .Str left, .Str right => some (.Str (left ++ right))
  | _, _ => none

/-- `impl Sub for &Object`. -/
def Obj.sub (a b : Obj) : Option Obj :=
  (Obj.as_numbers a b).map fun p => .Number (F64.sub p.1 p.2)

/-- `impl Mul for &Object`. -/
def Obj.mul (a b : Obj) : Option Obj :=
  (Obj.as_numbers a b).map fun p => .Number (F64.mul p.1 p.2)

/-- `impl Div for &Object` (division by zero follows IEEE 754: `±inf` or
NaN, no runtime error). -/
def Obj.div (a b : Obj) : Option Obj :=
  (Obj.as_numbers a b).map fun p => .Number (F64.div p.1 p.2)

/-- `impl Neg for &Object`. -/
def Obj.neg : Obj → Option Obj
  | .Number number => some (.Number (F64.neg number))
  | _ => none

/-- `impl Not for &Object`: boolean negation of truthiness. -/
def Obj.notObj (a : Obj) : Obj := .Boolean (!a.is_truthy)

/-- `impl PartialOrd for Object` (`partial_cmp`): numbers compare via
`f64::partial_cmp` (which is `None` when either operand is NaN), strings
lexicographically, every other pair is `None`. -/
def Obj.pcmp : Obj → Obj → Option Ordering
  | .Number left, .Number right => F64.pcmp left right
  | .Str left, .Str right => some (compare left right)
  | _, _ => none

/-- `impl PartialEq for Object` (`eq`): structural equality on
`Boolean`/`Number`/`String`/`Nil` — numbers by `f64::eq`, so
`NaN != NaN` — everything else (including any `Callable` or `Instance`,
and all cross-variant pairs) is `false`. -/
def Obj.eqObj : Obj → Obj → Bool
  | .Boolean left, .Boolean right => left == right
  | .Number left, .Number right => F64.beq left right
  | .Str left, .Str right => left == right
  | .Nil, .Nil => true
  | _, _ => false

/-! ## Environments (`environment.rs`) -/

/-- `RuntimeError` from `interpreter.rs`: the offending token and a
message. -/
structure RuntimeError where
  operator : Token
  message : String
  deriving DecidableEq, Repr

/-- `Environment` from `environment.rs`: a value map and an optional
enclosing environment (a heap index standing for
`Rc<RefCell<Environment>>`). -/
structure Env where
  values : List (String × Obj)
  enclosing : Option Nat

/-- The heap of environments; `Rc<RefCell<Environment>>` handles are
indices into it. -/
abbrev Heap := List Env

/-- `HashMap::insert` on the association-list model: overwrite the first
binding of the key, or append a new one. -/
def assocInsert {α : Type} (l : List (String × α)) (name : String) (v : α) :
    List (String × α) :=
  match l with
  | [] => [(name, v)]
  | (k, w) :: rest =>
    if k == name then (name, v) :: rest
    else (k, w) :: assocInsert rest name v

/-- `Environment::new` (`Default`): empty values, no enclosing. -/
def Env.new : Env := ⟨[], none⟩

/-- `Environment::from_enclosing`. -/
def Env.from_enclosing (enclosing : Nat) : Env := ⟨[], some enclosing⟩

/-- `Environment::define`: insert into this environment's own map. -/
def Env.define (e : Env) (name : String) (value : Obj) : Env :=
  { e with values := assocInsert e.values name value }

/-- `Environment::get`: look up in this environment, else recurse into the
enclosing chain; error with "Undefined variable" at the end of the chain.
The chain walk is fuelled; `none` models a dangling handle or an
environment cycle, neither of which the interpreter creates. -/
def Environment.get (h : Heap) : Nat → Nat → Token → Option (Except RuntimeError Obj)
  | 0, _, _ => none
  | fuel + 1, i, name =>
    match h.get? i with
    | none => none
    | some env =>
      match env.values.lookup name.lexeme with
      | some result => some (.ok result)
      | none =>
        match env.enclosing with
        | none =>
          some (.error ⟨name, "Undefined variable: \x27" ++ name.lexeme ++ "\x27."⟩)
        | some enclosing => Environment.get h fuel enclosing name

/-- `Environment::ancestor`: follow `distance` enclosing links. `none`
models the `unwrap` panic on a too-short chain or a dangling handle. -/
def Environment.ancestor (h : Heap) (i : Nat) : Nat → Option Nat
  | 0 => some i
  | distance + 1 =>
    match h.get? i with
    | none => none
    | some env =>
      match env.enclosing with
      | none => none
      | some enclosing => Environment.ancestor h enclosing distance

/-- `Environment::get_at`: read `name` directly in the `distance`-th
ancestor, with the "TODO: couldn\x27t get_at" error when the name is
absent there. `none` models the `ancestor` panic. -/
def Environment.get_at (h : Heap) (i : Nat) (distance : Nat) (name : Token) :
    Option (Except RuntimeError Obj) :=
  match Environment.ancestor h i distance with
  | none => none
  | some a =>
    match h.get? a with
    | none => none
    | some env =>
      match env.values.lookup name.lexeme with
      | some v => some (.ok v)
      | none => some (.error ⟨name, "TODO: couldn\x27t get_at"⟩)

/-- `Environment::assign`: overwrite the binding in the nearest enclosing
scope that already has the name (`Entry::Occupied`), else recurse; error
at the end of the chain. Fuelled like `Environment.get`. -/
def Environment.assign (h : Heap) :
    Nat → Nat → Token → Obj → Option ((Except RuntimeError Unit) × Heap)
  | 0, _, _, _ => none
  | fuel + 1, i, name, value =>
    match h.get? i with
    | none => none
    | some env =>
      if (env.values.lookup name.lexeme).isSome then
        some (.ok (), h.set i { env with values := assocInsert env.values name.lexeme value })
      else
        match env.enclosing with
        | none =>
          some (.error ⟨name, "Undefined variable: \x27" ++ name.lexeme ++ "\x27."⟩, h)
        | some enclosing => Environment.assign h fuel enclosing name value

/-- `Environment::assign_at`: `insert` the binding into the
`distance`-th ancestor unconditionally, then `Ok` exactly when `insert`
returned a previous value (`ok_or_else` on the old binding); the error is
"TODO: couldn\x27t assign_at". `none` models the `ancestor` panic. -/
def Environment.assign_at (h : Heap) (i : Nat) (distance : Nat) (name : Token)
    (value : Obj) : Option ((Except RuntimeError Unit) × Heap) :=
  match Environment.ancestor h i distance with
  | none => none
  | some a =>
    match h.get? a with
    | none => none
    | some env =>
      let old := env.values.lookup name.lexeme
      let h' := h.set a { env with values := assocInsert env.values name.lexeme value }
      match old with
      | some _ => some (.ok (), h')
      | none => some (.error ⟨name, "TODO: couldn\x27t assign_at"⟩, h')

/-! ## Interpreter state and non-local control (`interpreter.rs`) -/

/-- `enum Control` from `interpreter.rs`: a `Return` signal carrying a
value, or a runtime error. -/
inductive Control where
  | Ret (value : Obj)
  | Error (err : RuntimeError)

/-- The `Interpreter` state of `interpreter.rs` (`environment`, `globals`,
`locals`), together with the modelled ambient world: the environment heap
behind the `Rc<RefCell<_>>` handles, the stdout lines produced by `print`
(kept as the printed objects), and the wall clock read by the native
`clock`. -/
structure Interp where
  heap : Heap
  environment : Nat
  globals : Nat
  locals : List (Expr × Nat)
  output : List Obj
  clock : ℚ

/-- `Heap.defineAt`: `handle.borrow_mut().define(name, value)` on the heap
model (out-of-range handles cannot arise from `Rc` and leave the heap
unchanged). -/
def Heap.defineAt (h : Heap) (i : Nat) (name : String) (v : Obj) : Heap :=
  match h.get? i with
  | some env => h.set i (env.define name v)
  | none => h

/-- `Interpreter::new`: a single global environment containing the native
`clock`, aliased as the initial current environment. -/
def Interp.new (clock : ℚ) : Interp :=
  { heap := [Env.new.define "clock" (Obj.Callable .Clock)]
    environment := 0
    globals := 0
    locals := []
    output := []
    clock := clock }

/-- `HashMap<Expr, usize>::insert` for the `locals` table: keys compare by
the derived structural equality of `Expr`. -/
def localsInsert (l : List (Expr × Nat)) (e : Expr) (d : Nat) :
    List (Expr × Nat) :=
  match l with
  | [] => [(e, d)]
  | (k, w) :: rest =>
    if Expr.beq k e then (e, d) :: rest
    else (k, w) :: localsInsert rest e d

/-- `HashMap<Expr, usize>::get` for the `locals` table. -/
def localsGet (l : List (Expr × Nat)) (e : Expr) : Option Nat :=
  match l with
  | [] => none
  | (k, w) :: rest => if Expr.beq k e then some w else localsGet rest e

/-- `Interpreter::resolve`: record the depth for an expression in the
`locals` side table. -/
def Interpreter.resolve (st : Interp) (expr : Expr) (depth : Nat) : Interp :=
  { st with locals := localsInsert st.locals expr depth }

/-- `Interpreter::lookup_variable`: consult the `locals` table for the
expression; on a hit use `Environment::get_at` from the current
environment, otherwise `Environment::get` on globals. The `Option`
escapes of the environment model become "MODEL" errors (they cannot occur
on interpreter-built heaps). -/
def Interpreter.lookup_variable (st : Interp) (name : Token) (expr : Expr) :
    (Except RuntimeError Obj) × Interp :=
  match localsGet st.locals expr with
  | some distance =>
    match Environment.get_at st.heap st.environment distance name with
    | some r => (r, st)
    | none => (.error ⟨name, "MODEL: environment handle escape"⟩, st)
  | none =>
    match Environment.get st.heap (st.heap.length + 1) st.globals name with
    | some r => (r, st)
    | none => (.error ⟨name, "MODEL: environment handle escape"⟩, st)

/-! ## The `Callable` protocol (`callable.rs`, `lox_class.rs`,
`lox_instance.rs`) -/

/-- `Callable::arity` for each implementor: `Clock` is 0, a `LoxFunction`
is its parameter count, a `LoxClass` is `init`'s arity or 0
(`lox_class.rs`). -/
def CallableObj.arity : CallableObj → Nat
  | .Clock => 0
  | .Function f => f.parameters.length
  | .Klass k => ((k.methods.lookup "init").map fun i => i.parameters.length).getD 0

/-- The provided `Callable::check_arity`: error with
"Expected N arguments but got M." when the argument count differs from
the arity. -/
def check_arity (arity : Nat) (paren : Token) (arguments : List Obj) :
    Except RuntimeError Unit :=
  if arguments.length ≠ arity then
    .error ⟨paren, "Expected " ++ toString arity ++ " arguments but got "
      ++ toString arguments.length ++ "."⟩
  else .ok ()

/-- `LoxClass::find_method`. -/
def LoxClass.find_method (k : LoxClass) (name : String) : Option LoxFunction :=
  k.methods.lookup name

/-- `LoxInstance::get`: fields first, else the class's method wrapped as a
callable object — returned as found, without any binding step. -/
def LoxInstance.get (inst : LoxInstance) (name : Token) : Option Obj :=
  match inst.fields.lookup name.lexeme with
  | some v => some v
  | none => (inst.klass.find_method name.lexeme).map fun method =>
      Obj.Callable (.Function method)

/-- `LoxInstance::set`: insert into the field map. -/
def LoxInstance.set (inst : LoxInstance) (name : Token) (value : Obj) :
    LoxInstance :=
  .mk inst.klass (assocInsert inst.fields name.lexeme value)

/-- `LoxFunction::bind`: define `this → instance` **in the method's own
closure environment** (`self.closure.borrow_mut().define`), then rebuild
the function with the *same* closure handle; no new environment is
created. -/
def LoxFunction.bind (f : LoxFunction) (inst : LoxInstance) (h : Heap) :
    LoxFunction × Heap :=
  (⟨f.name, f.parameters, f.body, f.closure, f.is_initializer⟩,
    Heap.defineAt h f.closure "this" (Obj.Instance inst))

/-- The parameter-binding loop of `LoxFunction::call`:
`parameters.iter().zip(arguments)` with `define` on the fresh
environment (`zip` stops at the shorter list). -/
def bindParams (e : Env) : List Token → List Obj → Env
  | p :: ps, v :: vs => bindParams (e.define p.lexeme v) ps vs
  | _, _ => e

/-- The `this` token synthesised inside `LoxFunction::call` for the
initializer branches. -/
def thisToken (paren : Token) : Token :=
  Token.new .This "this" (.String "this") paren.line paren.column

/-- A placeholder token for model-level errors (fuel exhaustion). -/
def dummyToken : Token := Token.new .Eof "" .None 0 0

/-- The result injected when the evaluation fuel runs out; real
executions are recovered by choosing the fuel large enough. -/
def outOfFuelErr : RuntimeError := ⟨dummyToken, "MODEL: out of fuel"⟩

/-- `Contextable::context`: turn an `Option` into a result with a runtime
error naming the operator. -/
def contextOpt (o : Option Obj) (operator : Token) (message : String) :
    Except RuntimeError Obj :=
  match o with
  | some v => .ok v
  | none => .error ⟨operator, message⟩

/-- `Contextable::assert_numbers`: `context` with
"Operands must be numbers.". -/
def assertNumbers (o : Option Obj) (operator : Token) :
    Except RuntimeError Obj :=
  contextOpt o operator "Operands must be numbers."

/-- `From<&Literal> for Object` (`object.rs`); literal numbers from the
lexer are always finite. -/
def Obj.fromLiteral : Literal → Obj
  | .None => .Nil
  | .String s => .Str s
  | .Number n => .Number (.finite n)
  | .False => .Boolean false
  | .True => .Boolean true
  | .Nil => .Nil

/-- `impl Display for Object`, used by the "is not callable" diagnostic
(number formatting of finite `f64` values is abstracted by the `ℚ`
rendering). -/
def Obj.display : Obj → String
  | .Nil => "nil"
  | .Boolean b => toString b
  | .Number n => F64.display n
  | .Str s => s
  | .Callable .Clock => "<fn clock>"
  | .Callable (.Function f) => "<fn " ++ f.name ++ ">"
  | .Callable (.Klass k) => "<fn " ++ k.name ++ ">"
  | .Instance i => i.klass.name ++ " instance"

/-- `Clock`'s `Callable::call` (`callable.rs`): ignores its arguments and
returns the wall clock (`SystemTime::now`, modelled as the `clock` field
of the interpreter state; the pre-epoch error branch is not modelled).
No arity check is performed. -/
def Clock.call (st : Interp) (_paren : Token) (_arguments : List Obj) :
    (Except RuntimeError Obj) × Interp :=
  ((.ok (Obj.Number (.finite st.clock))), st)

/-! ## The evaluator (`interpreter.rs` and the `call` implementations)

One mutual block; every function takes fuel first and matches it, so the
recursion is structural in the fuel. Running out of fuel yields
`outOfFuelErr` with the state unchanged. -/

mutual

/-- `Interpreter::evaluate`: expression evaluation. -/
def evaluate : Nat → Interp → Expr → (Except RuntimeError Obj) × Interp
  | 0, st, _ => (.error outOfFuelErr, st)
  | fuel + 1, st, e =>
    match e with
    | .Logical left operator right => evaluate_logical fuel st left operator right
    | .Binary left operator right => evaluate_binary fuel st left operator right
    | .Grouping g => evaluate fuel st g
    | .Literal lit => (.ok (Obj.fromLiteral lit), st)
    | .Unary operator right => evaluate_unary fuel st operator right
    | .Variable name => Interpreter.lookup_variable st name (Expr.Variable name)
    | .Assign name value => Interpreter.assign_variable fuel st name value
    | .Call callee paren args => evaluate_call fuel st callee paren args

/-- `Interpreter::evaluate_unary`. The catch-all models the
`unreachable!` panic for impossible operators. -/
def evaluate_unary : Nat → Interp → Token → Expr → (Except RuntimeError Obj) × Interp
  | 0, st, _, _ => (.error outOfFuelErr, st)
  | fuel + 1, st, operator, right =>
    match evaluate fuel st right with
    | (.error e, st1) => (.error e, st1)
    | (.ok rightV, st1) =>
      match operator.token_type with
      | .Minus => (contextOpt (Obj.neg rightV) operator "Operand must be a number", st1)
      | .Bang => (.ok (Obj.notObj rightV), st1)
      | _ => (.error ⟨operator, "MODEL: unreachable unary operator"⟩, st1)

/-- `Interpreter::evaluate_logical`: short-circuiting `and`/`or`
returning the last operand actually evaluated. -/
def evaluate_logical : Nat → Interp → Expr → Token → Expr → (Except RuntimeError Obj) × Interp
  | 0, st, _, _, _ => (.error outOfFuelErr, st)
  | fuel + 1, st, left, operator, right =>
    match evaluate fuel st left with
    | (.error e, st1) => (.error e, st1)
    | (.ok l, st1) =>
      if operator.token_type == .And then
        if !l.is_truthy then (.ok l, st1) else evaluate fuel st1 right
      else
        if l.is_truthy then (.ok l, st1) else evaluate fuel st1 right

/-- `Interpreter::evaluate_binary`: evaluate left then right, dispatch on
the operator; comparisons go through `partial_cmp` with
`assert_numbers` naming the error. The catch-all models the
`unreachable!` panic. -/
def evaluate_binary : Nat → Interp → Expr → Token → Expr → (Except RuntimeError Obj) × Interp
  | 0, st, _, _, _ => (.error outOfFuelErr, st)
  | fuel + 1, st, left, operator, right =>
    match evaluate fuel st left with
    | (.error e, st1) => (.error e, st1)
    | (.ok l, st1) =>
      match evaluate fuel st1 right with
      | (.error e, st2) => (.error e, st2)
      | (.ok r, st2) =>
        match operator.token_type with
        | .Minus => (assertNumbers (Obj.sub l r) operator, st2)
        | .Slash => (assertNumbers (Obj.div l r) operator, st2)
        | .Star => (assertNumbers (Obj.mul l r) operator, st2)
        | .Plus =>
          (contextOpt (Obj.add l r) operator "Operands must be two numbers or two strings.", st2)
        | .Greater =>
          (assertNumbers ((Obj.pcmp l r).map fun o => Obj.Boolean (o == .gt)) operator, st2)
        | .GreaterEqual =>
          (assertNumbers ((Obj.pcmp l r).map fun o => Obj.Boolean (!(o == .lt))) operator, st2)
        | .Less =>
          (assertNumbers ((Obj.pcmp l r).map fun o => Obj.Boolean (o == .lt)) operator, st2)
        | .LessEqual =>
          (assertNumbers ((Obj.pcmp l r).map fun o => Obj.Boolean (!(o == .gt))) operator, st2)
        | .BangEqual => (.ok (Obj.Boolean (!(Obj.eqObj l r))), st2)
        | .EqualEqual => (.ok (Obj.Boolean (Obj.eqObj l r)), st2)
        | _ => (.error ⟨operator, "MODEL: unreachable binary operator"⟩, st2)

/-- `Interpreter::assign_variable`: evaluate the value, then assign
through the `locals` table — which, as in the source, is consulted with
the **value subexpression** as the key — via `assign_at`, else into
globals via `assign`; the assigned value is the result. -/
def Interpreter.assign_variable : Nat → Interp → Token → Expr → (Except RuntimeError Obj) × Interp
  | 0, st, _, _ => (.error outOfFuelErr, st)
  | fuel + 1, st, name, value =>
    match evaluate fuel st value with
    | (.error e, st1) => (.error e, st1)
    | (.ok v, st1) =>
      match localsGet st1.locals value with
      | some distance =>
        match Environment.assign_at st1.heap st1.environment distance name v with
        | some (.ok (), h') => (.ok v, { st1 with heap := h' })
        | some (.error e, h') => (.error e, { st1 with heap := h' })
        | none => (.error ⟨name, "MODEL: environment handle escape"⟩, st1)
      | none =>
        match Environment.assign st1.heap (st1.heap.length + 1) st1.globals name v with
        | some (.ok (), h') => (.ok v, { st1 with heap := h' })
        | some (.error e, h') => (.error e, { st1 with heap := h' })
        | none => (.error ⟨name, "MODEL: environment handle escape"⟩, st1)

/-- The argument collection of `Interpreter::evaluate_call`: evaluate
left to right, stopping at the first error. -/
def evaluateArgs : Nat → Interp → List Expr → (Except RuntimeError (List Obj)) × Interp
  | 0, st, _ => (.error outOfFuelErr, st)
  | _ + 1, st, [] => (.ok [], st)
  | fuel + 1, st, a :: rest =>
    match evaluate fuel st a with
    | (.error e, st1) => (.error e, st1)
    | (.ok v, st1) =>
      match evaluateArgs fuel st1 rest with
      | (.error e, st2) => (.error e, st2)
      | (.ok vs, st2) => (.ok (v :: vs), st2)

/-- `Interpreter::evaluate_call`: evaluate the callee, evaluate the
arguments, then dispatch `call` on a callable or fail with
"is not callable". -/
def evaluate_call : Nat → Interp → Expr → Token → List Expr → (Except RuntimeError Obj) × Interp
  | 0, st, _, _, _ => (.error outOfFuelErr, st)
  | fuel + 1, st, callee, paren, args =>
    match evaluate fuel st callee with
    | (.error e, st1) => (.error e, st1)
    | (.ok calleeV, st1) =>
      match evaluateArgs fuel st1 args with
      | (.error e, st2) => (.error e, st2)
      | (.ok argv, st2) =>
        match calleeV with
        | .Callable c => CallableObj.call fuel st2 c paren argv
        | _ =>
          (.error ⟨paren, "\x27" ++ calleeV.display ++ "\x27 is not callable"⟩, st2)

/-- Dynamic dispatch of `Callable::call` over the trait object. -/
def CallableObj.call : Nat → Interp → CallableObj → Token → List Obj → (Except RuntimeError Obj) × Interp
  | 0, st, _, _, _ => (.error outOfFuelErr, st)
  | fuel + 1, st, c, paren, argv =>
    match c with
    | .Clock => Clock.call st paren argv
    | .Function f => LoxFunction.call fuel st f paren argv
    | .Klass k => LoxClass.call fuel st k paren argv

/-- `LoxFunction::call` (`callable.rs`): check arity, bind parameters in a
fresh environment enclosing the closure, execute the body; on normal
completion an initializer yields `get_at(0, "this")` on the closure and a
plain function yields `Nil`; on a `Return` signal an initializer again
yields `get_at(0, "this")` and a plain function the carried value;
runtime errors propagate. -/
def LoxFunction.call : Nat → Interp → LoxFunction → Token → List Obj → (Except RuntimeError Obj) × Interp
  | 0, st, _, _, _ => (.error outOfFuelErr, st)
  | fuel + 1, st, f, paren, argv =>
    match check_arity f.parameters.length paren argv with
    | .error e => (.error e, st)
    | .ok () =>
      let environment := bindParams (Env.from_enclosing f.closure) f.parameters argv
      match execute_block fuel st f.body environment with
      | (.ok (), st') =>
        if f.is_initializer then
          match Environment.get_at st'.heap f.closure 0 (thisToken paren) with
          | some r => (r, st')
          | none => (.error ⟨paren, "MODEL: environment handle escape"⟩, st')
        else (.ok Obj.Nil, st')
      | (.error (.Ret value), st') =>
        if f.is_initializer then
          match Environment.get_at st'.heap f.closure 0 (thisToken paren) with
          | some r => (r, st')
          | none => (.error ⟨paren, "MODEL: environment handle escape"⟩, st')
        else (.ok value, st')
      | (.error (.Error err), st') => (.error err, st')

/-- `LoxClass`'s `Callable::call` (`lox_class.rs`): make a fresh instance;
if `init` exists, bind it (to a clone) and invoke it, discarding its
result (`let _ = ...`); return the original instance. -/
def LoxClass.call : Nat → Interp → LoxClass → Token → List Obj → (Except RuntimeError Obj) × Interp
  | 0, st, _, _, _ => (.error outOfFuelErr, st)
  | fuel + 1, st, k, paren, argv =>
    let inst := LoxInstance.mk k []
    match k.find_method "init" with
    | some initializer =>
      let p := LoxFunction.bind initializer inst st.heap
      let r := LoxFunction.call fuel { st with heap := p.2 } p.1 paren argv
      ((.ok (Obj.Instance inst)), r.2)
    | none => ((.ok (Obj.Instance inst)), st)

/-- `Interpreter::evaluate_stmt`: statement execution returning the
control signal. -/
def evaluate_stmt : Nat → Interp → Stmt → (Except Control Unit) × Interp
  | 0, st, _ => (.error (.Error outOfFuelErr), st)
  | fuel + 1, st, s =>
    match s with
    | .Expression expr =>
      match evaluate fuel st expr with
      | (.ok _, st1) => ((.ok ()), st1)
      | (.error e, st1) => ((.error (.Error e)), st1)
    | .If condition then_branch else_branch =>
      match evaluate fuel st condition with
      | (.error e, st1) => ((.error (.Error e)), st1)
      | (.ok c, st1) =>
        if c.is_truthy then evaluate_stmt fuel st1 then_branch
        else
          match else_branch with
          | some eb => evaluate_stmt fuel st1 eb
          | none => ((.ok ()), st1)
    | .Print expr =>
      match evaluate fuel st expr with
      | (.error e, st1) => ((.error (.Error e)), st1)
      | (.ok object, st1) => ((.ok ()), { st1 with output := st1.output ++ [object] })
    | .Var name (some expr) =>
      match evaluate fuel st expr with
      | (.error e, st1) => ((.error (.Error e)), st1)
      | (.ok v, st1) =>
        ((.ok ()), { st1 with heap := Heap.defineAt st1.heap st1.environment name v })
    | .Var name none =>
      ((.ok ()), { st with heap := Heap.defineAt st.heap st.environment name Obj.Nil })
    | .Block statements => execute_block fuel st statements (Env.from_enclosing st.environment)
    | .While condition body => executeWhile fuel st condition body
    | .Function name params body =>
      -- interpreter.rs constructs the function without an is_initializer
      -- argument (a 4-argument LoxFunction::new from an earlier revision);
      -- declared functions are not initializers.
      let function := LoxFunction.mk name.lexeme params body st.environment false
      ((.ok ()),
        { st with heap :=
            Heap.defineAt st.heap st.environment name.lexeme (Obj.Callable (.Function function)) })
    | .Return _keyword none => ((.error (.Ret Obj.Nil)), st)
    | .Return _keyword (some expr) =>
      match evaluate fuel st expr with
      | (.error e, st1) => ((.error (.Error e)), st1)
      | (.ok v, st1) => ((.error (.Ret v)), st1)

/-- The `while` loop inside `Interpreter::evaluate_stmt`, unrolled on the
fuel. -/
def executeWhile : Nat → Interp → Expr → Stmt → (Except Control Unit) × Interp
  | 0, st, _, _ => (.error (.Error outOfFuelErr), st)
  | fuel + 1, st, condition, body =>
    match evaluate fuel st condition with
    | (.error e, st1) => ((.error (.Error e)), st1)
    | (.ok c, st1) =>
      if c.is_truthy then
        match evaluate_stmt fuel st1 body with
        | ((.ok ()), st2) => executeWhile fuel st2 condition body
        | ((.error err), st2) => ((.error err), st2)
      else ((.ok ()), st1)

/-- The statement loop of `Interpreter::execute_block`: run each
statement in order, stopping at (and returning) the first signal. -/
def executeStmts : Nat → Interp → List Stmt → (Except Control Unit) × Interp
  | 0, st, _ => (.error (.Error outOfFuelErr), st)
  | _ + 1, st, [] => ((.ok ()), st)
  | fuel + 1, st, sHead :: rest =>
    match evaluate_stmt fuel st sHead with
    | ((.ok ()), st1) => executeStmts fuel st1 rest
    | ((.error err), st1) => ((.error err), st1)

/-- `Interpreter::execute_block`: save the current environment, install
the given fresh one (allocated on the heap), run the statements, and
restore the saved environment on both the error path and the normal
path. -/
def execute_block : Nat → Interp → List Stmt → Env → (Except Control Unit) × Interp
  | 0, st, _, _ => (.error (.Error outOfFuelErr), st)
  | fuel + 1, st, statements, environment =>
    let previous := st.environment
    let st1 := { st with heap := st.heap ++ [environment], environment := st.heap.length }
    match executeStmts fuel st1 statements with
    | ((.ok ()), st2) => ((.ok ()), { st2 with environment := previous })
    | ((.error err), st2) => ((.error err), { st2 with environment := previous })

end

/-! ## The scanner (`scanner.rs`)

Diagnostics printed by `print_error`/`report` are collected in an
`errors` list (the diagnostic sink). Loops are fuelled; a fuel of
`source.length + 1` always suffices since every iteration advances. -/

/-- `report` from `scanner.rs`/`parser.rs`:
`"[line N] Error LOCATION: MESSAGE"`. -/
def report (line_number : Nat) (location : String) (message : String) : String :=
  "[line " ++ toString line_number ++ "] Error " ++ location ++ ": " ++ message

/-- `print_error` from `scanner.rs`: `report` with an empty location. -/
def scanError (line_number : Nat) (message : String) : String :=
  report line_number "" message

/-- The `Scanner` state of `scanner.rs`; `errors` models the printed
diagnostics. Note `line_number` starts at 0 (`Default`). -/
structure Scanner where
  source : List Char
  tokens : List Token
  line_number : Nat
  start : Nat
  current : Nat
  had_error : Bool
  errors : List String

/-- `Scanner::new`. -/
def Scanner.new (source : String) : Scanner :=
  { source := source.toList, tokens := [], line_number := 0, start := 0,
    current := 0, had_error := false, errors := [] }

/-- The reserved-word table built in `Scanner::new`. -/
def keywords (text : String) : Option TokenType :=
  match text with
  | "and" => some .And
  | "class" => some .Class
  | "else" => some .Else
  | "false" => some .False
  | "for" => some .For
  | "fun" => some .Fun
  | "if" => some .If
  | "nil" => some .Nil
  | "or" => some .Or
  | "print" => some .Print
  | "return" => some .Return
  | "super" => some .Super
  | "this" => some .This
  | "true" => some .True
  | "var" => some .Var
  | "while" => some .While
  | _ => none

/-- `Scanner::is_at_end`. -/
def Scanner.is_at_end (s : Scanner) : Bool := s.source.length ≤ s.current

/-- `Scanner::advance`: the consumed character and the bumped state (the
out-of-range index panic cannot occur behind the `is_at_end` guards). -/
def Scanner.advance (s : Scanner) : Char × Scanner :=
  (s.source.getD s.current ' ', { s with current := s.current + 1 })

/-- `Scanner::peek`. -/
def Scanner.peek (s : Scanner) : Option Char := s.source.get? s.current

/-- `Scanner::peek_next`. -/
def Scanner.peek_next (s : Scanner) : Option Char := s.source.get? (s.current + 1)

/-- `Scanner::add_token_with_literal`: lexeme is `source[start..current]`,
the line is the current line number (the scanner's tokens carry no
column). -/
def Scanner.add_token_with_literal (s : Scanner) (token_type : TokenType)
    (literal : Literal) : Scanner :=
  let text : String := String.mk ((s.source.drop s.start).take (s.current - s.start))
  { s with tokens := s.tokens ++
      [{ token_type, lexeme := text, literal, line := s.line_number }] }

/-- `Scanner::add_token`. -/
def Scanner.add_token (s : Scanner) (token_type : TokenType) : Scanner :=
  s.add_token_with_literal token_type .None

/-- `Scanner::match_`: conditionally consume an expected character. -/
def Scanner.match_ (s : Scanner) (expected : Char) : Bool × Scanner :=
  if s.is_at_end || s.source.getD s.current ' ' != expected then (false, s)
  else (true, { s with current := s.current + 1 })

/-- `'0'..='9'` (the Rust range pattern). -/
def isDigitChar (c : Char) : Bool := '0' ≤ c && c ≤ '9'

/-- `'a'..='z' | 'A'..='Z' | '_'`. -/
def isAlphaChar (c : Char) : Bool :=
  ('a' ≤ c && c ≤ 'z') || ('A' ≤ c && c ≤ 'Z') || c == '_'

/-- `'a'..='z' | 'A'..='Z' | '0'..='9' | '_'` (the identifier-tail
pattern). -/
def isAlnumChar (c : Char) : Bool := isAlphaChar c || isDigitChar c

/-- The `//` comment loop: consume to (but not including) the newline. -/
def Scanner.commentLoop : Nat → Scanner → Scanner
  | 0, s => s
  | fuel + 1, s =>
    match s.peek with
    | some c => if c != '\n' then Scanner.commentLoop fuel (s.advance).2 else s
    | none => s

/-- The chomp loop of `Scanner::string`: advance to the closing quote or
the end of input, counting newlines. -/
def Scanner.stringLoop : Nat → Scanner → Scanner
  | 0, s => s
  | fuel + 1, s =>
    match s.peek with
    | none => s
    | some c =>
      if c == '"' then s
      else
        let s :=
          if c == '\n' then { s with line_number := s.line_number + 1 } else s
        Scanner.stringLoop fuel (s.advance).2

/-- `Scanner::string`: scan a string literal. An unterminated string
reports "Unterminated string" and returns — without setting
`had_error` and without emitting a token. -/
def Scanner.string (fuel : Nat) (s : Scanner) : Scanner :=
  let s := Scanner.stringLoop fuel s
  if s.is_at_end then
    { s with errors := s.errors ++ [scanError s.line_number "Unterminated string"] }
  else
    let s := (s.advance).2
    let value : String :=
      String.mk ((s.source.drop (s.start + 1)).take (s.current - 1 - (s.start + 1)))
    s.add_token_with_literal .String (.String value)

/-- The digit-munching loop of `Scanner::digit`. -/
def Scanner.digitLoop : Nat → Scanner → Scanner
  | 0, s => s
  | fuel + 1, s =>
    match s.peek with
    | some c => if isDigitChar c then Scanner.digitLoop fuel (s.advance).2 else s
    | none => s

/-- Decimal digits to a natural number. -/
def digitsToNat (cs : List Char) : Nat :=
  cs.foldl (fun acc c => acc * 10 + (c.toNat - '0'.toNat)) 0

/-- The `str::parse::<f64>` call in `Scanner::digit`, modelled exactly on
the lexer's guaranteed format `[0-9]+(\.[0-9]+)?` over `ℚ`. -/
def parseNumberChars (cs : List Char) : ℚ :=
  let intPart := cs.takeWhile (fun c => c != '.')
  let fracPart := (cs.dropWhile (fun c => c != '.')).drop 1
  (digitsToNat intPart : ℚ) + (digitsToNat fracPart : ℚ) / ((10 : ℚ) ^ fracPart.length)

/-- `Scanner::digit`: scan a number literal (integer part, optionally a
dot followed by at least one digit and the fraction digits). -/
def Scanner.digit (fuel : Nat) (s : Scanner) : Scanner :=
  let s := Scanner.digitLoop fuel s
  let s :=
    if s.peek == some '.' && (s.peek_next.map isDigitChar).getD false then
      Scanner.digitLoop fuel ((s.advance).2)
    else s
  let value := parseNumberChars ((s.source.drop s.start).take (s.current - s.start))
  s.add_token_with_literal .Number (.Number value)

/-- `Scanner::identifier`: munch the identifier tail, then upgrade to a
keyword kind via the reserved-word table. -/
def Scanner.identifierLoop : Nat → Scanner → Scanner
  | 0, s => s
  | fuel + 1, s =>
    match s.peek with
    | some c => if isAlnumChar c then Scanner.identifierLoop fuel (s.advance).2 else s
    | none => s

/-- `Scanner::identifier`. -/
def Scanner.identifier (fuel : Nat) (s : Scanner) : Scanner :=
  let s := Scanner.identifierLoop fuel s
  let text : String := String.mk ((s.source.drop s.start).take (s.current - s.start))
  s.add_token ((keywords text).getD .Identifier)

/-- One arm of the big `match` in `Scanner::scan_tokens`, given the
character just consumed. Only the catch-all "Unexpected character." arm
sets `had_error`. -/
def Scanner.scanStep (fuel : Nat) (s : Scanner) (c : Char) : Scanner :=
  match c with
  | '(' => s.add_token .LeftParen
  | ')' => s.add_token .RightParen
  | '{' => s.add_token .LeftBrace
  | '}' => s.add_token .RightBrace
  | ',' => s.add_token .Comma
  | '.' => s.add_token .Dot
  | '-' => s.add_token .Minus
  | '+' => s.add_token .Plus
  | ';' => s.add_token .Semicolon
  | '*' => s.add_token .Star
  | '!' =>
    match s.match_ '=' with
    | (true, s) => s.add_token .BangEqual
    | (false, s) => s.add_token .Bang
  | '=' =>
    match s.match_ '=' with
    | (true, s) => s.add_token .EqualEqual
    | (false, s) => s.add_token .Equal
  | '<' =>
    match s.match_ '=' with
    | (true, s) => s.add_token .LessEqual
    | (false, s) => s.add_token .Less
  | '>' =>
    match s.match_ '=' with
    | (true, s) => s.add_token .GreaterEqual
    | (false, s) => s.add_token .Greater
  | '/' =>
    match s.match_ '/' with
    | (true, s) => Scanner.commentLoop fuel s
    | (false, s) => s.add_token .Slash
  | ' ' => s
  | '\r' => s
  | '\t' => s
  | '\n' => { s with line_number := s.line_number + 1 }
  | '"' => Scanner.string fuel s
  | c =>
    if isDigitChar c then Scanner.digit fuel s
    else if isAlphaChar c then Scanner.identifier fuel s
    else
      { s with
        errors := s.errors ++ [scanError s.line_number "Unexpected character."]
        had_error := true }

/-- The scanning loop of `Scanner::scan_tokens`. -/
def Scanner.scanLoop : Nat → Scanner → Scanner
  | 0, s => s
  | fuel + 1, s =>
    if s.is_at_end then s
    else
      let s := { s with start := s.current }
      let (c, s) := s.advance
      Scanner.scanLoop fuel (Scanner.scanStep fuel s c)

/-- `Scanner::scan_tokens`: scan everything, append the `Eof` token, and
return the token list — or `Err(())` exactly when `had_error` was set. -/
def Scanner.scan_tokens (fuel : Nat) (s : Scanner) :
    (Except Unit (List Token)) × Scanner :=
  let s := Scanner.scanLoop fuel s
  let s := s.add_token .Eof
  if s.had_error then (.error (), s) else (.ok s.tokens, s)

/-! ## The parser (`parser.rs`)

Recursive descent with one-token lookahead over the token list, fuelled.
Diagnostics from `print_error` are collected in `errors`; `ParseError`
carries no data, exactly as in the source. -/

/-- Modelled from the spec: `token.rs` (and its `Display` impls) is
absent from the sources; a token is displayed by its lexeme inside parser
diagnostics. -/
def Token.display (t : Token) : String := t.lexeme

/-- Modelled from the spec: the textual form of a literal inside parser
diagnostics (`token.rs` is absent); numbers use the `ℚ` rendering. -/
def literalDisplay : Literal → String
  | .None => "None"
  | .String s => s
  | .Number n => toString n
  | .True => "True"
  | .False => "False"
  | .Nil => "Nil"

mutual

/-- `impl Display for Expr` (`parser.rs`), used by the
"Invalid assignment target" diagnostic. -/
def Expr.display : Expr → String
  | .Logical left operator right =>
    "(" ++ operator.lexeme ++ " " ++ left.display ++ " " ++ right.display ++ ")"
  | .Binary left operator right =>
    "(" ++ operator.lexeme ++ " " ++ left.display ++ " " ++ right.display ++ ")"
  | .Grouping e => "(group " ++ e.display ++ ")"
  | .Literal lit => literalDisplay lit
  | .Unary operator right => "(" ++ operator.lexeme ++ " " ++ right.display ++ ")"
  | .Variable name => name.display
  | .Assign name e => name.display ++ " = " ++ e.display
  | .Call callee _paren args => callee.display ++ "(" ++ Expr.displayList args ++ ")"

/-- Argument-list rendering for `Expr.display` (the `{:?}` of the
source, abbreviated to the displays). -/
def Expr.displayList : List Expr → String
  | [] => ""
  | [e] => e.display
  | e :: rest => e.display ++ ", " ++ Expr.displayList rest

end

/-- `struct ParseError` of `parser.rs` (no payload). -/
inductive ParseError where
  | mk

/-- `enum FunctionKind` of `parser.rs`. -/
inductive FunctionKind where
  | Function
  | Method

/-- `impl Display for FunctionKind`. -/
def FunctionKind.display : FunctionKind → String
  | .Function => "function"
  | .Method => "method"

/-- The `Parser` state of `parser.rs` (`tokens`, `current`), plus the
collected `print_error` diagnostics. -/
structure ParserS where
  tokens : List Token
  current : Nat
  errors : List String

/-- `Parser::new`. -/
def ParserS.new (tokens : List Token) : ParserS :=
  { tokens, current := 0, errors := [] }

/-- `Parser::peek` (`tokens.get(current).unwrap()`; for `Eof`-terminated
token lists the index never leaves the list, so the panic is modelled by
a dummy token that cannot be reached). -/
def ParserS.peek (p : ParserS) : Token := p.tokens.getD p.current dummyToken

/-- `Parser::previous`. -/
def ParserS.previous (p : ParserS) : Token := p.tokens.getD (p.current - 1) dummyToken

/-- `Parser::is_at_end`. -/
def ParserS.is_at_end (p : ParserS) : Bool := p.peek.token_type == .Eof

/-- `Parser::check`. -/
def ParserS.check (p : ParserS) (token_type : TokenType) : Bool :=
  if p.is_at_end then false else p.peek.token_type == token_type

/-- `Parser::advance`: bump unless at end, and return the new
`previous`. -/
def ParserS.advance (p : ParserS) : Token × ParserS :=
  let p := if !p.is_at_end then { p with current := p.current + 1 } else p
  (p.previous, p)

/-- `Parser::match_`: consume the first matching type of the list. -/
def ParserS.match_ (p : ParserS) : List TokenType → Bool × ParserS
  | [] => (false, p)
  | t :: rest => if p.check t then (true, (p.advance).2) else p.match_ rest

/-- `print_error` from `parser.rs`: "at end" for `Eof`, else
"at \x27LEXEME\x27". -/
def parseErrorMsg (t : Token) (message : String) : String :=
  if t.token_type == .Eof then report t.line "at end" message
  else report t.line ("at \x27" ++ t.lexeme ++ "\x27") message

/-- Append a `print_error` diagnostic. -/
def ParserS.logError (p : ParserS) (t : Token) (message : String) : ParserS :=
  { p with errors := p.errors ++ [parseErrorMsg t message] }

/-- `Parser::consume`: advance past the expected token type or report
`message` and fail. -/
def ParserS.consume (p : ParserS) (token_type : TokenType) (message : String) :
    (Except ParseError Token) × ParserS :=
  if p.check token_type then
    let (t, p) := p.advance
    (.ok t, p)
  else (.error .mk, p.logError p.peek message)

/-- The loop of `Parser::_synchronize`: skip tokens until just past a
`;` or in front of a statement keyword. -/
def ParserS.synchronizeLoop : Nat → ParserS → ParserS
  | 0, p => p
  | fuel + 1, p =>
    if p.is_at_end then p
    else if p.previous.token_type == .Semicolon then p
    else
      match p.peek.token_type with
      | .Class => p
      | .Fun => p
      | .Var => p
      | .For => p
      | .If => p
      | .While => p
      | .Print => p
      | .Return => p
      | _ => ParserS.synchronizeLoop fuel (p.advance).2

/-- `Parser::_synchronize`: advance once, then skip to a statement
boundary. -/
def ParserS.synchronize (fuel : Nat) (p : ParserS) : ParserS :=
  ParserS.synchronizeLoop fuel (p.advance).2

namespace Parser

mutual

/-- `Parser::declaration`: dispatch on `fun`/`var`/statement; on an
error, synchronize (`map_err`) and still propagate the error. -/
def declaration : Nat → ParserS → (Except ParseError Stmt) × ParserS
  | 0, p => (.error .mk, p)
  | fuel + 1, p =>
    let r :=
      match p.match_ [.Fun] with
      | (true, p) => function fuel p .Function
      | (false, p) =>
        match p.match_ [.Var] with
        | (true, p) => var_declaration fuel p
        | (false, p) => statement fuel p
    match r with
    | (.ok s, p) => (.ok s, p)
    | (.error e, p) => (.error e, ParserS.synchronize fuel p)

/-- `Parser::statement`. -/
def statement : Nat → ParserS → (Except ParseError Stmt) × ParserS
  | 0, p => (.error .mk, p)
  | fuel + 1, p =>
    match p.match_ [.For] with
    | (true, p) => for_statement fuel p
    | (false, p) =>
      match p.match_ [.If] with
      | (true, p) => if_statement fuel p
      | (false, p) =>
        match p.match_ [.Print] with
        | (true, p) => print_statement fuel p
        | (false, p) =>
          match p.match_ [.Return] with
          | (true, p) => return_statement fuel p
          | (false, p) =>
            match p.match_ [.While] with
            | (true, p) => while_statement fuel p
            | (false, p) =>
              match p.match_ [.LeftBrace] with
              | (true, p) =>
                match block fuel p with
                | (.ok statements, p) => (.ok (Stmt.Block statements), p)
                | (.error e, p) => (.error e, p)
              | (false, p) => expression_statement fuel p

/-- `Parser::for_statement`: parse the clauses (note the source checks
`;` — not `)` — before the increment clause) and desugar to
`\x7b init; while (cond) \x7b body; step \x7d \x7d`. -/
def for_statement : Nat → ParserS → (Except ParseError Stmt) × ParserS
  | 0, p => (.error .mk, p)
  | fuel + 1, p =>
    match p.consume .LeftParen "Expect \x27(\x27 after \x27for\x27." with
    | (.error e, p) => (.error e, p)
    | (.ok _, p) =>
      let initR : (Except ParseError (Option Stmt)) × ParserS :=
        match p.match_ [.Semicolon] with
        | (true, p) => (.ok none, p)
        | (false, p) =>
          match p.match_ [.Var] with
          | (true, p) =>
            match var_declaration fuel p with
            | (.ok s, p) => (.ok (some s), p)
            | (.error e, p) => (.error e, p)
          | (false, p) =>
            match expression_statement fuel p with
            | (.ok s, p) => (.ok (some s), p)
            | (.error e, p) => (.error e, p)
      match initR with
      | (.error e, p) => (.error e, p)
      | (.ok initializer, p) =>
        let condR : (Except ParseError (Option Expr)) × ParserS :=
          if p.check .Semicolon then (.ok none, p)
          else
            match expression fuel p with
            | (.ok e, p) => (.ok (some e), p)
            | (.error e, p) => (.error e, p)
        match condR with
        | (.error e, p) => (.error e, p)
        | (.ok condition, p) =>
          match p.consume .Semicolon "Expect \x27;\x27 after loop condition." with
          | (.error e, p) => (.error e, p)
          | (.ok _, p) =>
            let incRes : (Except ParseError (Option Expr)) × ParserS :=
              if p.check .Semicolon then (.ok none, p)
              else
                match expression fuel p with
                | (.ok e, p) => (.ok (some e), p)
                | (.error e, p) => (.error e, p)
            match incRes with
            | (.error e, p) => (.error e, p)
            | (.ok increment, p) =>
              match p.consume .RightParen "Expect \x27)\x27 after for clauses." with
              | (.error e, p) => (.error e, p)
              | (.ok _, p) =>
                match statement fuel p with
                | (.error e, p) => (.error e, p)
                | (.ok body, p) =>
                  let body :=
                    match increment with
                    | some e => Stmt.Block [body, Stmt.Expression e]
                    | none => body
                  let condition := condition.getD (Expr.Literal .True)
                  let body := Stmt.While condition body
                  let body :=
                    match initializer with
                    | some s => Stmt.Block [s, body]
                    | none => body
                  (.ok body, p)

/-- `Parser::if_statement`. -/
def if_statement : Nat → ParserS → (Except ParseError Stmt) × ParserS
  | 0, p => (.error .mk, p)
  | fuel + 1, p =>
    match p.consume .LeftParen "Expect \x27(\x27 after \x27if\x27." with
    | (.error e, p) => (.error e, p)
    | (.ok _, p) =>
      match expression fuel p with
      | (.error e, p) => (.error e, p)
      | (.ok condition, p) =>
        match p.consume .RightParen "Expect \x27)\x27 after if condition." with
        | (.error e, p) => (.error e, p)
        | (.ok _, p) =>
          match statement fuel p with
          | (.error e, p) => (.error e, p)
          | (.ok then_branch, p) =>
            match p.match_ [.Else] with
            | (true, p) =>
              match statement fuel p with
              | (.error e, p) => (.error e, p)
              | (.ok else_branch, p) =>
                (.ok (Stmt.If condition then_branch (some else_branch)), p)
            | (false, p) => (.ok (Stmt.If condition then_branch none), p)

/-- The declaration loop of `Parser::block`. -/
def blockLoop : Nat → ParserS → List Stmt → (Except ParseError (List Stmt)) × ParserS
  | 0, p, _ => (.error .mk, p)
  | fuel + 1, p, acc =>
    if !p.check .RightBrace && !p.is_at_end then
      match declaration fuel p with
      | (.error e, p) => (.error e, p)
      | (.ok s, p) => blockLoop fuel p (acc ++ [s])
    else
      match p.consume .RightBrace "Expect \x27\x7d\x27 after block." with
      | (.error e, p) => (.error e, p)
      | (.ok _, p) => (.ok acc, p)

/-- `Parser::block`: declarations until the closing brace. -/
def block : Nat → ParserS → (Except ParseError (List Stmt)) × ParserS
  | 0, p => (.error .mk, p)
  | fuel + 1, p => blockLoop fuel p []

/-- The parameter loop of `Parser::function` (reports — without
aborting — past 255 parameters). -/
def paramsLoop : Nat → ParserS → List Token → (Except ParseError (List Token)) × ParserS
  | 0, p, _ => (.error .mk, p)
  | fuel + 1, p, acc =>
    let p :=
      if 255 ≤ acc.length then
        p.logError p.peek "Can\x27t have more than 255 parameters."
      else p
    match p.consume .Identifier "Expect parameter name." with
    | (.error e, p) => (.error e, p)
    | (.ok t, p) =>
      match p.match_ [.Comma] with
      | (true, p) => paramsLoop fuel p (acc ++ [t])
      | (false, p) => (.ok (acc ++ [t]), p)

/-- `Parser::function`: name, parameter list, brace, body block. -/
def function : Nat → ParserS → FunctionKind → (Except ParseError Stmt) × ParserS
  | 0, p, _ => (.error .mk, p)
  | fuel + 1, p, kind =>
    match p.consume .Identifier ("Expect " ++ kind.display ++ " name.") with
    | (.error e, p) => (.error e, p)
    | (.ok name, p) =>
      match p.consume .LeftParen ("Expect \x27(\x27 after " ++ kind.display ++ " name.") with
      | (.error e, p) => (.error e, p)
      | (.ok _, p) =>
        let paramsR : (Except ParseError (List Token)) × ParserS :=
          if !p.check .RightParen then paramsLoop fuel p [] else (.ok [], p)
        match paramsR with
        | (.error e, p) => (.error e, p)
        | (.ok parameters, p) =>
          match p.consume .RightParen "Expect \x27)\x27 after parameters." with
          | (.error e, p) => (.error e, p)
          | (.ok _, p) =>
            match p.consume .LeftBrace ("Expect \x27\x7b\x27 before " ++ kind.display ++ " body.") with
            | (.error e, p) => (.error e, p)
            | (.ok _, p) =>
              match block fuel p with
              | (.error e, p) => (.error e, p)
              | (.ok body, p) => (.ok (Stmt.Function name parameters body), p)

/-- `Parser::var_declaration`. -/
def var_declaration : Nat → ParserS → (Except ParseError Stmt) × ParserS
  | 0, p => (.error .mk, p)
  | fuel + 1, p =>
    match p.consume .Identifier "Expect variable name." with
    | (.error e, p) => (.error e, p)
    | (.ok name, p) =>
      match p.match_ [.Equal] with
      | (true, p) =>
        match expression fuel p with
        | (.error e, p) => (.error e, p)
        | (.ok initializer, p) =>
          match p.consume .Semicolon "Expect \x27;\x27 after variable declaration." with
          | (.error e, p) => (.error e, p)
          | (.ok _, p) => (.ok (Stmt.Var name.lexeme (some initializer)), p)
      | (false, p) =>
        match p.consume .Semicolon "Expect \x27;\x27 after variable declaration." with
        | (.error e, p) => (.error e, p)
        | (.ok _, p) => (.ok (Stmt.Var name.lexeme none), p)

/-- `Parser::expression`. -/
def expression : Nat → ParserS → (Except ParseError Expr) × ParserS
  | 0, p => (.error .mk, p)
  | fuel + 1, p => assignment fuel p

/-- `Parser::assignment`: parse `or`; on `=`, recurse; a non-`Variable`
target reports "Invalid assignment target" without aborting. -/
def assignment : Nat → ParserS → (Except ParseError Expr) × ParserS
  | 0, p => (.error .mk, p)
  | fuel + 1, p =>
    match logicOr fuel p with
    | (.error e, p) => (.error e, p)
    | (.ok expr, p) =>
      match p.match_ [.Equal] with
      | (false, p) => (.ok expr, p)
      | (true, p) =>
        let equals := p.previous
        match assignment fuel p with
        | (.error e, p) => (.error e, p)
        | (.ok value, p) =>
          match expr with
          | .Variable name => (.ok (Expr.Assign name value), p)
          | _ =>
            (.ok expr,
              p.logError equals ("Invalid assignment target: " ++ expr.display))

/-- The `or` loop of `Parser::or`. -/
def logicOrLoop : Nat → ParserS → Expr → (Except ParseError Expr) × ParserS
  | 0, p, _ => (.error .mk, p)
  | fuel + 1, p, expr =>
    match p.match_ [.Or] with
    | (false, p) => (.ok expr, p)
    | (true, p) =>
      let operator := p.previous
      match logicAnd fuel p with
      | (.error e, p) => (.error e, p)
      | (.ok right, p) => logicOrLoop fuel p (Expr.Logical expr operator right)

/-- `Parser::or`. -/
def logicOr : Nat → ParserS → (Except ParseError Expr) × ParserS
  | 0, p => (.error .mk, p)
  | fuel + 1, p =>
    match logicAnd fuel p with
    | (.error e, p) => (.error e, p)
    | (.ok expr, p) => logicOrLoop fuel p expr

/-- The `and` loop of `Parser::and`. -/
def logicAndLoop : Nat → ParserS → Expr → (Except ParseError Expr) × ParserS
  | 0, p, _ => (.error .mk, p)
  | fuel + 1, p, expr =>
    match p.match_ [.And] with
    | (false, p) => (.ok expr, p)
    | (true, p) =>
      let operator := p.previous
      match equality fuel p with
      | (.error e, p) => (.error e, p)
      | (.ok right, p) => logicAndLoop fuel p (Expr.Logical expr operator right)

/-- `Parser::and`. -/
def logicAnd : Nat → ParserS → (Except ParseError Expr) × ParserS
  | 0, p => (.error .mk, p)
  | fuel + 1, p =>
    match equality fuel p with
    | (.error e, p) => (.error e, p)
    | (.ok expr, p) => logicAndLoop fuel p expr

/-- The operator loop of `Parser::equality`. -/
def equalityLoop : Nat → ParserS → Expr → (Except ParseError Expr) × ParserS
  | 0, p, _ => (.error .mk, p)
  | fuel + 1, p, expr =>
    match p.match_ [.BangEqual, .EqualEqual] with
    | (false, p) => (.ok expr, p)
    | (true, p) =>
      let operator := p.previous
      match comparison fuel p with
      | (.error e, p) => (.error e, p)
      | (.ok right, p) => equalityLoop fuel p (Expr.Binary expr operator right)

/-- `Parser::equality`. -/
def equality : Nat → ParserS → (Except ParseError Expr) × ParserS
  | 0, p => (.error .mk, p)
  | fuel + 1, p =>
    match comparison fuel p with
    | (.error e, p) => (.error e, p)
    | (.ok expr, p) => equalityLoop fuel p expr

/-- The operator loop of `Parser::comparison`. -/
def comparisonLoop : Nat → ParserS → Expr → (Except ParseError Expr) × ParserS
  | 0, p, _ => (.error .mk, p)
  | fuel + 1, p, expr =>
    match p.match_ [.Greater, .GreaterEqual, .Less, .LessEqual] with
    | (false, p) => (.ok expr, p)
    | (true, p) =>
      let operator := p.previous
      match term fuel p with
      | (.error e, p) => (.error e, p)
      | (.ok right, p) => comparisonLoop fuel p (Expr.Binary expr operator right)

/-- `Parser::comparison`. -/
def comparison : Nat → ParserS → (Except ParseError Expr) × ParserS
  | 0, p => (.error .mk, p)
  | fuel + 1, p =>
    match term fuel p with
    | (.error e, p) => (.error e, p)
    | (.ok expr, p) => comparisonLoop fuel p expr

/-- The operator loop of `Parser::term`. -/
def termLoop : Nat → ParserS → Expr → (Except ParseError Expr) × ParserS
  | 0, p, _ => (.error .mk, p)
  | fuel + 1, p, expr =>
    match p.match_ [.Minus, .Plus] with
    | (false, p) => (.ok expr, p)
    | (true, p) =>
      let operator := p.previous
      match factor fuel p with
      | (.error e, p) => (.error e, p)
      | (.ok right, p) => termLoop fuel p (Expr.Binary expr operator right)

/-- `Parser::term`. -/
def term : Nat → ParserS → (Except ParseError Expr) × ParserS
  | 0, p => (.error .mk, p)
  | fuel + 1, p =>
    match factor fuel p with
    | (.error e, p) => (.error e, p)
    | (.ok expr, p) => termLoop fuel p expr

/-- The operator loop of `Parser::factor`. -/
def factorLoop : Nat → ParserS → Expr → (Except ParseError Expr) × ParserS
  | 0, p, _ => (.error .mk, p)
  | fuel + 1, p, expr =>
    match p.match_ [.Star, .Slash] with
    | (false, p) => (.ok expr, p)
    | (true, p) =>
      let operator := p.previous
      match unary fuel p with
      | (.error e, p) => (.error e, p)
      | (.ok right, p) => factorLoop fuel p (Expr.Binary expr operator right)

/-- `Parser::factor`. -/
def factor : Nat → ParserS → (Except ParseError Expr) × ParserS
  | 0, p => (.error .mk, p)
  | fuel + 1, p =>
    match unary fuel p with
    | (.error e, p) => (.error e, p)
    | (.ok expr, p) => factorLoop fuel p expr

/-- `Parser::unary`. -/
def unary : Nat → ParserS → (Except ParseError Expr) × ParserS
  | 0, p => (.error .mk, p)
  | fuel + 1, p =>
    match p.match_ [.Bang, .Minus] with
    | (true, p) =>
      let operator := p.previous
      match unary fuel p with
      | (.error e, p) => (.error e, p)
      | (.ok right, p) => (.ok (Expr.Unary operator right), p)
    | (false, p) => call fuel p

/-- The call loop of `Parser::call`. -/
def callLoop : Nat → ParserS → Expr → (Except ParseError Expr) × ParserS
  | 0, p, _ => (.error .mk, p)
  | fuel + 1, p, expr =>
    match p.match_ [.LeftParen] with
    | (true, p) =>
      match finish_call fuel p expr with
      | (.error e, p) => (.error e, p)
      | (.ok expr, p) => callLoop fuel p expr
    | (false, p) => (.ok expr, p)

/-- `Parser::call`. -/
def call : Nat → ParserS → (Except ParseError Expr) × ParserS
  | 0, p => (.error .mk, p)
  | fuel + 1, p =>
    match primary fuel p with
    | (.error e, p) => (.error e, p)
    | (.ok expr, p) => callLoop fuel p expr

/-- The argument loop of `Parser::finish_call` (reports — without
aborting — past 255 arguments). -/
def argsLoop : Nat → ParserS → List Expr → (Except ParseError (List Expr)) × ParserS
  | 0, p, _ => (.error .mk, p)
  | fuel + 1, p, acc =>
    let p :=
      if 255 ≤ acc.length then
        p.logError p.peek "Can\x27t have more than 255 arguments."
      else p
    match expression fuel p with
    | (.error e, p) => (.error e, p)
    | (.ok a, p) =>
      match p.match_ [.Comma] with
      | (true, p) => argsLoop fuel p (acc ++ [a])
      | (false, p) => (.ok (acc ++ [a]), p)

/-- `Parser::finish_call`. -/
def finish_call : Nat → ParserS → Expr → (Except ParseError Expr) × ParserS
  | 0, p, _ => (.error .mk, p)
  | fuel + 1, p, callee =>
    let argsR : (Except ParseError (List Expr)) × ParserS :=
      if !p.check .RightParen then argsLoop fuel p [] else (.ok [], p)
    match argsR with
    | (.error e, p) => (.error e, p)
    | (.ok arguments, p) =>
      match p.consume .RightParen "Expect \x27)\x27 after arguments." with
      | (.error e, p) => (.error e, p)
      | (.ok paren, p) => (.ok (Expr.Call callee paren arguments), p)

/-- `Parser::primary`. -/
def primary : Nat → ParserS → (Except ParseError Expr) × ParserS
  | 0, p => (.error .mk, p)
  | fuel + 1, p =>
    match p.match_ [.False] with
    | (true, p) => (.ok (Expr.Literal .False), p)
    | (false, p) =>
      match p.match_ [.True] with
      | (true, p) => (.ok (Expr.Literal .True), p)
      | (false, p) =>
        match p.match_ [.Nil] with
        | (true, p) => (.ok (Expr.Literal .Nil), p)
        | (false, p) =>
          match p.match_ [.Number, .String] with
          | (true, p) => (.ok (Expr.Literal p.previous.literal), p)
          | (false, p) =>
            match p.match_ [.Identifier] with
            | (true, p) => (.ok (Expr.Variable p.previous), p)
            | (false, p) =>
              match p.match_ [.LeftParen] with
              | (true, p) =>
                match expression fuel p with
                | (.error e, p) => (.error e, p)
                | (.ok expr, p) =>
                  match p.consume .RightParen "Expect \x27)\x27 after expression." with
                  | (.error e, p) => (.error e, p)
                  | (.ok _, p) => (.ok (Expr.Grouping expr), p)
              | (false, p) =>
                (.error .mk, p.logError p.peek "Expect expression.")

/-- The `print_statement` of `parser.rs`. -/
def print_statement : Nat → ParserS → (Except ParseError Stmt) × ParserS
  | 0, p => (.error .mk, p)
  | fuel + 1, p =>
    match expression fuel p with
    | (.error e, p) => (.error e, p)
    | (.ok e, p) =>
      match p.consume .Semicolon "Expect \x27;\x27 after value." with
      | (.error err, p) => (.error err, p)
      | (.ok _, p) => (.ok (Stmt.Print e), p)

/-- `Parser::return_statement`. -/
def return_statement : Nat → ParserS → (Except ParseError Stmt) × ParserS
  | 0, p => (.error .mk, p)
  | fuel + 1, p =>
    let keyword := p.previous
    let valueR : (Except ParseError (Option Expr)) × ParserS :=
      if p.check .Semicolon then (.ok none, p)
      else
        match expression fuel p with
        | (.ok e, p) => (.ok (some e), p)
        | (.error e, p) => (.error e, p)
    match valueR with
    | (.error e, p) => (.error e, p)
    | (.ok value, p) =>
      match p.consume .Semicolon "Expect \x27;\x27 after return value." with
      | (.error e, p) => (.error e, p)
      | (.ok _, p) => (.ok (Stmt.Return keyword value), p)

/-- `Parser::while_statement`. -/
def while_statement : Nat → ParserS → (Except ParseError Stmt) × ParserS
  | 0, p => (.error .mk, p)
  | fuel + 1, p =>
    match p.consume .LeftParen "Expect \x27(\x27 after \x27while\x27." with
    | (.error e, p) => (.error e, p)
    | (.ok _, p) =>
      match expression fuel p with
      | (.error e, p) => (.error e, p)
      | (.ok condition, p) =>
        match p.consume .RightParen "Expect \x27)\x27 after condition." with
        | (.error e, p) => (.error e, p)
        | (.ok _, p) =>
          match statement fuel p with
          | (.error e, p) => (.error e, p)
          | (.ok body, p) => (.ok (Stmt.While condition body), p)

/-- `Parser::expression_statement`. -/
def expression_statement : Nat → ParserS → (Except ParseError Stmt) × ParserS
  | 0, p => (.error .mk, p)
  | fuel + 1, p =>
    match expression fuel p with
    | (.error e, p) => (.error e, p)
    | (.ok e, p) =>
      match p.consume .Semicolon "Expect \x27;\x27 after value." with
      | (.error err, p) => (.error err, p)
      | (.ok _, p) => (.ok (Stmt.Expression e), p)

/-- The loop of `Parser::parse`: `statements.push(self.declaration().ok()?)`
— the `?` on the `Option` aborts the whole parse, returning "no
program", at the **first** failed declaration. -/
def parseLoop : Nat → ParserS → List Stmt → (Option (List Stmt)) × ParserS
  | 0, p, _ => (none, p)
  | fuel + 1, p, acc =>
    if !p.is_at_end then
      match declaration fuel p with
      | (.ok s, p) => parseLoop fuel p (acc ++ [s])
      | (.error _, p) => (none, p)
    else (some acc, p)

/-- `Parser::parse`. -/
def parse (fuel : Nat) (p : ParserS) : (Option (List Stmt)) × ParserS :=
  parseLoop fuel p []

end

end Parser

/-! ## The resolver (`resolver.rs`)

The scope stack is a `Vec<HashMap<String, bool>>`; here the list head is
the innermost scope (the Vec's top), so `resolve_local`'s reversed
iteration with `len - 1 - i` becomes a head-first scan whose position is
the depth. The `Class`/`Get`/`Set` arms of the source match AST
constructors from a later parser revision that do not exist in the
`parser.rs` of the sources, so they have no counterpart here. -/

/-- The `Resolver` state of `resolver.rs`: the owned interpreter (whose
`locals` table it fills), the scope stack, `current_function`, and the
collected diagnostics. -/
structure ResolverS where
  interpreter : Interp
  scopes : List (List (String × Bool))
  current_function : Option FunctionKind
  errors : List String

/-- `Resolver::new`. -/
def ResolverS.new (interpreter : Interp) : ResolverS :=
  { interpreter, scopes := [], current_function := none, errors := [] }

/-- `Resolver::begin_scope`. -/
def ResolverS.begin_scope (r : ResolverS) : ResolverS :=
  { r with scopes := [] :: r.scopes }

/-- `Resolver::end_scope` (`Vec::pop`). -/
def ResolverS.end_scope (r : ResolverS) : ResolverS :=
  { r with scopes := r.scopes.tail }

/-- Append a diagnostic line. -/
def ResolverS.logError (r : ResolverS) (message : String) : ResolverS :=
  { r with errors := r.errors ++ [message] }

/-- `Resolver::declare`: mark the name "declared but not defined" in the
innermost scope (if any), reporting a redeclaration. -/
def ResolverS.declare (r : ResolverS) (name : String) : ResolverS :=
  match r.scopes with
  | [] => r
  | scope :: rest =>
    let errs :=
      if (scope.lookup name).isSome then
        r.errors ++
          ["Already a variable called \x27" ++ name ++ "\x27 in this scope."]
      else r.errors
    { r with errors := errs, scopes := assocInsert scope name false :: rest }

/-- `Resolver::define`: mark the name fully bound in the innermost scope
(if any). -/
def ResolverS.define (r : ResolverS) (name : String) : ResolverS :=
  match r.scopes with
  | [] => r
  | scope :: rest => { r with scopes := assocInsert scope name true :: rest }

/-- The scan of `Resolver::resolve_local`: the first scope (innermost
first) containing the name gives the depth. -/
def resolveLocalDepth : List (List (String × Bool)) → String → Option Nat
  | [], _ => none
  | scope :: rest, name =>
    if (scope.lookup name).isSome then some 0
    else (resolveLocalDepth rest name).map (· + 1)

/-- `Resolver::resolve_local`: record the depth for `expr` in the
interpreter's `locals` table, or record nothing (global). -/
def ResolverS.resolve_local (r : ResolverS) (expr : Expr) (name : Token) :
    ResolverS :=
  match resolveLocalDepth r.scopes name.lexeme with
  | some depth =>
    { r with interpreter := Interpreter.resolve r.interpreter expr depth }
  | none => r

mutual

/-- `Resolver::resolve_expression`. As in the source, an `Assign` keys
`resolve_local` by its **value subexpression**. -/
def resolve_expression : Nat → ResolverS → Expr → ResolverS
  | 0, r, _ => r
  | fuel + 1, r, e =>
    match e with
    | .Logical left _operator right =>
      resolve_expression fuel (resolve_expression fuel r left) right
    | .Binary left _operator right =>
      resolve_expression fuel (resolve_expression fuel r left) right
    | .Call callee _paren arguments =>
      resolveExprList fuel (resolve_expression fuel r callee) arguments
    | .Grouping g => resolve_expression fuel r g
    | .Literal _ => r
    | .Unary _operator right => resolve_expression fuel r right
    | .Variable name =>
      let r :=
        match r.scopes with
        | scope :: _ =>
          if scope.lookup name.lexeme == some false then
            r.logError
              (parseErrorMsg name "Can\x27t read local variable in its own initializer.")
          else r
        | [] => r
      r.resolve_local (Expr.Variable name) name
    | .Assign identifier value =>
      (resolve_expression fuel r value).resolve_local value identifier

/-- The argument loop of the `Call` arm. -/
def resolveExprList : Nat → ResolverS → List Expr → ResolverS
  | 0, r, _ => r
  | _ + 1, r, [] => r
  | fuel + 1, r, e :: rest => resolveExprList fuel (resolve_expression fuel r e) rest

/-- `Resolver::resolve_statement`. -/
def resolve_statement : Nat → ResolverS → Stmt → ResolverS
  | 0, r, _ => r
  | fuel + 1, r, s =>
    match s with
    | .Var name initializer =>
      let r := r.declare name
      let r :=
        match initializer with
        | some init => resolve_expression fuel r init
        | none => r
      r.define name
    | .Block statements =>
      (resolveStmtList fuel r.begin_scope statements).end_scope
    | .If condition then_branch else_branch =>
      let r := resolve_expression fuel r condition
      let r := resolve_statement fuel r then_branch
      match else_branch with
      | some eb => resolve_statement fuel r eb
      | none => r
    | .Expression e => resolve_expression fuel r e
    | .Function name parameters body =>
      let r := (r.declare name.lexeme).define name.lexeme
      resolve_function fuel r parameters body .Function
    | .Print e => resolve_expression fuel r e
    | .Return keyword value =>
      let r :=
        if r.current_function.isNone then
          r.logError (parseErrorMsg keyword "Can\x27t return from top-level code.")
        else r
      match value with
      | some v => resolve_expression fuel r v
      | none => r
    | .While condition body =>
      resolve_statement fuel (resolve_expression fuel r condition) body

/-- `Resolver::resolve_statements`. -/
def resolveStmtList : Nat → ResolverS → List Stmt → ResolverS
  | 0, r, _ => r
  | _ + 1, r, [] => r
  | fuel + 1, r, s :: rest => resolveStmtList fuel (resolve_statement fuel r s) rest

/-- `Resolver::resolve_function`: swap in the kind, open the parameter
scope, declare+define each parameter, resolve the body, close the scope
and restore the previous kind. -/
def resolve_function : Nat → ResolverS → List Token → List Stmt → FunctionKind → ResolverS
  | 0, r, _, _, _ => r
  | fuel + 1, r, parameters, body, kind =>
    let previous := r.current_function
    let r := { r with current_function := some kind }
    let r := r.begin_scope
    let r := parameters.foldl (fun r p => (r.declare p.lexeme).define p.lexeme) r
    let r := resolveStmtList fuel r body
    let r := r.end_scope
    { r with current_function := previous }

end

/-! ## Statement helpers and concrete fixtures -/

/-- The variant tag of a runtime value, for stating cross-variant
properties. -/
def Obj.tag : Obj → Nat
  | .Nil => 0
  | .Boolean _ => 1
  | .Number _ => 2
  | .Str _ => 3
  | .Callable _ => 4
  | .Instance _ => 5

/-- An `x` identifier token. -/
def xTok : Token := { token_type := .Identifier, lexeme := "x", literal := .None, line := 1 }

/-- A one-environment heap binding `x` to `nil`. -/
def e10 : Env := ⟨[("x", Obj.Nil)], none⟩

/-- The heap holding just `e10`. -/
def h10 : Heap := [e10]

/-- The `clock` identifier token. -/
def clockNameTok : Token :=
  { token_type := .Identifier, lexeme := "clock", literal := .None, line := 0 }

/-- An `==` operator token. -/
def eqeqTok : Token := { token_type := .EqualEqual, lexeme := "==", literal := .None, line := 0 }

/-- A `/` operator token. -/
def slashTok : Token := { token_type := .Slash, lexeme := "/", literal := .None, line := 0 }

/-- A `<` operator token. -/
def lessTok : Token := { token_type := .Less, lexeme := "<", literal := .None, line := 0 }

/-- A `)` call-site token. -/
def parenTok : Token := { token_type := .RightParen, lexeme := ")", literal := .None, line := 0 }

/-- A parameterless function with an empty body closing over the global
environment. -/
def f2 : LoxFunction :=
  { name := "f", parameters := [], body := [], closure := 0, is_initializer := false }

/-- The state after running `f2`'s (empty) body from the fresh
interpreter: one new empty environment enclosing globals, current
environment restored. -/
def st2c2 : Interp :=
  { heap := [⟨[("clock", Obj.Callable .Clock)], none⟩, ⟨[], some 0⟩],
    environment := 0, globals := 0, locals := [], output := [], clock := 0 }

/-- An `m` identifier token (a method name). -/
def mTok : Token := { token_type := .Identifier, lexeme := "m", literal := .None, line := 1 }

/-- A two-environment heap: the globals-like environment 0 and the
class-declaration environment 1 that serves as the method closure. -/
def h0c1 : Heap := [⟨[], none⟩, ⟨[], some 0⟩]

/-- A parameterless method `m` whose closure is environment 1 of
`h0c1`. -/
def mFun : LoxFunction :=
  { name := "m", parameters := [], body := [], closure := 1, is_initializer := false }

/-- A class `C` with the single method `m`. -/
def classC : LoxClass := { name := "C", methods := [("m", mFun)] }

/-- An instance of `C` with field `id = 1`. -/
def instA : LoxInstance := .mk classC [("id", Obj.Number 1)]

/-- A second instance of `C` with field `id = 2`. -/
def instB : LoxInstance := .mk classC [("id", Obj.Number 2)]

/-- The token stream of `var 1; var 2;` — two declarations, both parse
errors (a number where a variable name is expected). -/
def p3 : ParserS :=
  ParserS.new
    [{ token_type := .Var, lexeme := "var", literal := .None, line := 0 },
     { token_type := .Number, lexeme := "1", literal := .Number 1, line := 0 },
     { token_type := .Semicolon, lexeme := ";", literal := .None, line := 0 },
     { token_type := .Var, lexeme := "var", literal := .None, line := 0 },
     { token_type := .Number, lexeme := "2", literal := .Number 2, line := 0 },
     { token_type := .Semicolon, lexeme := ";", literal := .None, line := 0 },
     { token_type := .Eof, lexeme := "", literal := .None, line := 0 }]

/-- The token stream of the second declaration `var 2;` alone. -/
def p3tail : ParserS :=
  ParserS.new
    [{ token_type := .Var, lexeme := "var", literal := .None, line := 0 },
     { token_type := .Number, lexeme := "2", literal := .Number 2, line := 0 },
     { token_type := .Semicolon, lexeme := ";", literal := .None, line := 0 },
     { token_type := .Eof, lexeme := "", literal := .None, line := 0 }]

/-- A use of `x`: the expression `x`, occurring twice — structurally
identically — in `prog5`. -/
def varX : Expr := .Variable xTok

/-- `\x7b var x = 1; \x7b var x = 2; \x7b print x; \x7d \x7d \x7d` — the
program up to and including the inner occurrence of `x` (correct depth
1). -/
def progInner : Stmt :=
  .Block
    [.Var "x" (some (.Literal (.Number 1))),
     .Block
       [.Var "x" (some (.Literal (.Number 2))),
        .Block [.Print varX]]]

/-- `\x7b var x = 1; \x7b var x = 2; \x7b print x; \x7d \x7d print x; \x7d`
— two structurally identical occurrences of `x` whose correct depths
differ (1 for the inner, 0 for the outer). -/
def prog5 : Stmt :=
  .Block
    [.Var "x" (some (.Literal (.Number 1))),
     .Block
       [.Var "x" (some (.Literal (.Number 2))),
        .Block [.Print varX]],
     .Print varX]

/-- A fresh resolver over the fresh interpreter. -/
def r5 : ResolverS := ResolverS.new (Interp.new 0)

/-! ## Helper lemmas -/

/-- Inserting a binding makes it the one found by lookup. -/
theorem assocInsert_lookup {α : Type} (l : List (String × α)) (name : String)
    (v : α) : (assocInsert l name v).lookup name = some v := by
  induction l with
  | nil => simp [assocInsert, List.lookup]
  | cons hd tl ih =>
    rcases hd with ⟨k, w⟩
    by_cases hk : k = name
    · simp [assocInsert, hk, List.lookup]
    · simp only [assocInsert]
      rw [if_neg (by simpa using hk)]
      simpa [List.lookup, BEq.beq, hk, Ne.symm hk] using ih

/-! ## Claims -/

/-- `Ordering::is_lt` against `decide` on rationals. -/
theorem compareQ_lt (x y : ℚ) : (compare x y == Ordering.lt) = decide (x < y) := by
  rcases lt_trichotomy x y with h | h | h
  · rw [compare_lt_iff_lt.mpr h]; exact (decide_eq_true h).symm
  · subst h; rw [compare_eq_iff_eq.mpr rfl]; exact (decide_eq_false (lt_irrefl x)).symm
  · rw [compare_gt_iff_gt.mpr h]; exact (decide_eq_false (not_lt_of_gt h)).symm

/-- `Ordering::is_ge` against `decide` on rationals. -/
theorem compareQ_not_lt (x y : ℚ) : (!(compare x y == Ordering.lt)) = decide (y ≤ x) := by
  rcases lt_trichotomy x y with h | h | h
  · rw [compare_lt_iff_lt.mpr h]; exact (decide_eq_false (not_le_of_gt h)).symm
  · subst h; rw [compare_eq_iff_eq.mpr rfl]; exact (decide_eq_true (le_refl x)).symm
  · rw [compare_gt_iff_gt.mpr h]; exact (decide_eq_true (le_of_lt h)).symm

/-- `Ordering::is_gt` against `decide` on rationals. -/
theorem compareQ_gt (x y : ℚ) : (compare x y == Ordering.gt) = decide (y < x) := by
  rcases lt_trichotomy x y with h | h | h
  · rw [compare_lt_iff_lt.mpr h]; exact (decide_eq_false (not_lt_of_gt h)).symm
  · subst h; rw [compare_eq_iff_eq.mpr rfl]; exact (decide_eq_false (lt_irrefl x)).symm
  · rw [compare_gt_iff_gt.mpr h]; exact (decide_eq_true h).symm

/-- `Ordering::is_le` against `decide` on rationals. -/
theorem compareQ_not_gt (x y : ℚ) : (!(compare x y == Ordering.gt)) = decide (x ≤ y) := by
  rcases lt_trichotomy x y with h | h | h
  · rw [compare_lt_iff_lt.mpr h]; exact (decide_eq_true (le_of_lt h)).symm
  · subst h; rw [compare_eq_iff_eq.mpr rfl]; exact (decide_eq_true (le_refl x)).symm
  · rw [compare_gt_iff_gt.mpr h]; exact (decide_eq_false (not_le_of_gt h)).symm

/-- C7 counterexample: a comparison on two `Num` operands can fail at
runtime — `0/0` is a `Num` (NaN, following IEEE 754 division), yet
evaluating `(0/0) < 1` yields the runtime error "Operands must be
numbers." instead of the Boolean of a numeric order. -/
theorem nan_comparison_errors_counterexample :
    Obj.div (.Number 0) (.Number 0) = some (.Number .nan)
    ∧ evaluate 4 (Interp.new 0)
        (.Binary (.Literal (.Number 0)) slashTok (.Literal (.Number 0)))
      = (.ok (.Number .nan), Interp.new 0)
    ∧ evaluate 5 (Interp.new 0)
        (.Binary (.Binary (.Literal (.Number 0)) slashTok (.Literal (.Number 0)))
          lessTok (.Literal (.Number 1)))
      = (.error ⟨lessTok, "Operands must be numbers."⟩, Interp.new 0) :=
  ⟨rfl, rfl, rfl⟩

/-- C7 (amended): evaluating a comparison (`<`, `<=`, `>`, `>=`) on two
`Num` operands yields the Boolean of their numeric order whenever
neither operand is NaN; when either `Num` operand is NaN (reachable via
`0/0`), `partial_cmp` is `None` and the comparison fails with the same
"Operands must be numbers." runtime error as any operand combination
other than Num/Num or Str/Str, for which ordering is otherwise defined.
-/
theorem comparisons_ordered_or_error :
    (∀ x y : ℚ, Obj.pcmp (.Number (.finite x)) (.Number (.finite y))
        = some (compare x y))
    ∧ (∀ s t : String, Obj.pcmp (.Str s) (.Str t) = some (compare s t))
    ∧ (∀ m : F64, Obj.pcmp (.Number .nan) (.Number m) = none
        ∧ Obj.pcmp (.Number m) (.Number .nan) = none)
    ∧ (∀ a b : Obj, Obj.as_numbers a b = none →
        (∀ s t : String, ¬(a = .Str s ∧ b = .Str t)) → Obj.pcmp a b = none)
    ∧ (∀ (fuel : Nat) (st : Interp) (operator : Token) (x y : ℚ),
        operator.token_type = .Less →
        evaluate (fuel + 3) st
            (.Binary (.Literal (.Number x)) operator (.Literal (.Number y)))
          = (.ok (.Boolean (decide (x < y))), st))
    ∧ (∀ (fuel : Nat) (st : Interp) (operator : Token) (x y : ℚ),
        operator.token_type = .LessEqual →
        evaluate (fuel + 3) st
            (.Binary (.Literal (.Number x)) operator (.Literal (.Number y)))
          = (.ok (.Boolean (decide (x ≤ y))), st))
    ∧ (∀ (fuel : Nat) (st : Interp) (operator : Token) (x y : ℚ),
        operator.token_type = .Greater →
        evaluate (fuel + 3) st
            (.Binary (.Literal (.Number x)) operator (.Literal (.Number y)))
          = (.ok (.Boolean (decide (y < x))), st))
    ∧ (∀ (fuel : Nat) (st : Interp) (operator : Token) (x y : ℚ),
        operator.token_type = .GreaterEqual →
        evaluate (fuel + 3) st
            (.Binary (.Literal (.Number x)) operator (.Literal (.Number y)))
          = (.ok (.Boolean (decide (y ≤ x))), st))
    ∧ (∀ (fuel : Nat) (st : Interp) (operator : Token) (l r : Literal),
        (operator.token_type = .Greater ∨ operator.token_type = .GreaterEqual ∨
          operator.token_type = .Less ∨ operator.token_type = .LessEqual) →
        Obj.pcmp (Obj.fromLiteral l) (Obj.fromLiteral r) = none →
        evaluate (fuel + 3) st (.Binary (.Literal l) operator (.Literal r))
          = (.error ⟨operator, "Operands must be numbers."⟩, st)) := by
  refine ⟨fun x y => rfl, fun s t => rfl,
    fun m => ⟨by cases m <;> rfl, by cases m <;> rfl⟩, ?_, ?_, ?_, ?_, ?_, ?_⟩
  · intro a b h1 h2
    cases a <;> cases b <;> first
      | rfl
      | (exact absurd ⟨rfl, rfl⟩ (h2 _ _))
      | (simp [Obj.as_numbers] at h1)
  · intro fuel st operator x y hop
    simp [evaluate, evaluate_binary, Obj.fromLiteral, hop, Obj.pcmp, F64.pcmp,
      assertNumbers, contextOpt, Option.map, compareQ_lt]
  · intro fuel st operator x y hop
    simp [evaluate, evaluate_binary, Obj.fromLiteral, hop, Obj.pcmp, F64.pcmp,
      assertNumbers, contextOpt, Option.map, compareQ_not_gt]
  · intro fuel st operator x y hop
    simp [evaluate, evaluate_binary, Obj.fromLiteral, hop, Obj.pcmp, F64.pcmp,
      assertNumbers, contextOpt, Option.map, compareQ_gt]
  · intro fuel st operator x y hop
    simp [evaluate, evaluate_binary, Obj.fromLiteral, hop, Obj.pcmp, F64.pcmp,
      assertNumbers, contextOpt, Option.map, compareQ_not_lt]
  · intro fuel st operator l r hop hp
    rcases hop with hop | hop | hop | hop <;>
      simp [evaluate, evaluate_binary, hop, hp, assertNumbers, contextOpt, Option.map]

/-- Witness for C7 at `1 < 2` in the fresh interpreter. -/
theorem comparisons_ordered_or_error_witness :
    evaluate 3 (Interp.new 0)
        (.Binary (.Literal (.Number 1))
          (Token.new .Less "<" .None 0 0) (.Literal (.Number 2)))
      = (.ok (.Boolean true), Interp.new 0)
    ∧ evaluate 3 (Interp.new 0)
        (.Binary (.Literal .Nil)
          (Token.new .Less "<" .None 0 0) (.Literal (.Number 2)))
      = (.error ⟨Token.new .Less "<" .None 0 0, "Operands must be numbers."⟩,
          Interp.new 0) :=
  ⟨comparisons_ordered_or_error.2.2.2.2.1 0 (Interp.new 0)
      (Token.new .Less "<" .None 0 0) 1 2 rfl,
    comparisons_ordered_or_error.2.2.2.2.2.2.2.2 0 (Interp.new 0)
      (Token.new .Less "<" .None 0 0) .Nil (.Number 2)
      (Or.inr (Or.inr (Or.inl rfl))) rfl⟩

/-- C8: executing a block saves the current environment, installs a fresh
environment enclosing it, runs the statements in order, and restores the
saved environment on every exit path — normal completion, a `Return`
signal, and a runtime error — so after `execute_block` returns (with any
outcome) the interpreter's current environment equals the environment
that was current before the block. -/
theorem execute_block_restores_environment (fuel : Nat) (st : Interp)
    (statements : List Stmt) (environment : Env) :
    ((execute_block fuel st statements environment).2).environment
      = st.environment := by
  cases fuel with
  | zero => rfl
  | succ fuel =>
    show (match executeStmts fuel
            { st with heap := st.heap ++ [environment], environment := st.heap.length }
            statements with
          | (Except.ok (), st2) => ((Except.ok ()), { st2 with environment := st.environment })
          | (Except.error err, st2) =>
            ((Except.error err), { st2 with environment := st.environment })).2.environment
        = st.environment
    rcases executeStmts fuel
        { st with heap := st.heap ++ [environment], environment := st.heap.length }
        statements with ⟨r, st2⟩
    cases r with
    | ok u => cases u; rfl
    | error c => rfl

/-- C10: `Environment::assign_at` is not atomic on failure — it inserts
the binding into the `distance`-th ancestor unconditionally, returns `Ok`
exactly when the name was already bound there, and in both cases the
binding at that distance ends up holding the assigned value. -/
theorem assign_at_not_atomic (h : Heap) (i distance : Nat) (name : Token)
    (value : Obj) (a : Nat) (env : Env)
    (hanc : Environment.ancestor h i distance = some a)
    (henv : h.get? a = some env) :
    Environment.assign_at h i distance name value =
      some
        ((if (env.values.lookup name.lexeme).isSome then Except.ok ()
          else Except.error ⟨name, "TODO: couldn\x27t assign_at"⟩),
         h.set a { env with values := assocInsert env.values name.lexeme value })
    ∧ (assocInsert env.values name.lexeme value).lookup name.lexeme = some value := by
  refine ⟨?_, assocInsert_lookup _ _ _⟩
  unfold Environment.assign_at
  simp only [hanc]
  simp only [henv]
  cases hl : env.values.lookup name.lexeme <;> simp [hl]

/-- Witness for C10 on a one-environment heap: the name `x` is present,
so the assignment succeeds and the binding holds the new value. -/
theorem assign_at_not_atomic_witness :
    Environment.assign_at h10 0 0 xTok (Obj.Number 1) =
      some
        ((if (e10.values.lookup xTok.lexeme).isSome then Except.ok ()
          else Except.error ⟨xTok, "TODO: couldn\x27t assign_at"⟩),
         h10.set 0 { e10 with values := assocInsert e10.values xTok.lexeme (Obj.Number 1) })
    ∧ (assocInsert e10.values xTok.lexeme (Obj.Number 1)).lookup xTok.lexeme
        = some (Obj.Number 1) :=
  assign_at_not_atomic h10 0 0 xTok (Obj.Number 1) 0 e10 rfl rfl

/-- C9 counterexample: evaluating `clock == clock` — a callable compared
to itself — yields `false`, not `true`. -/
theorem callable_self_equality_counterexample :
    evaluate 3 (Interp.new 0) (.Binary (.Variable clockNameTok) eqeqTok (.Variable clockNameTok))
      = (.ok (.Boolean false), Interp.new 0) := by
  rfl

/-- C9 (amended): runtime equality compares cross-variant values as
always unequal, and callable values compare unequal to **everything,
including themselves** — for every callable value `v`, `v == v` evaluates
to `false`. -/
theorem runtime_equality_by_variant :
    (∀ a b : Obj, a.tag ≠ b.tag → Obj.eqObj a b = false)
    ∧ (∀ c c' : CallableObj, Obj.eqObj (.Callable c) (.Callable c') = false)
    ∧ (∀ (fuel : Nat) (st : Interp) (operator : Token) (l r : Literal),
        operator.token_type = .EqualEqual →
        evaluate (fuel + 3) st (.Binary (.Literal l) operator (.Literal r))
          = (.ok (.Boolean (Obj.eqObj (Obj.fromLiteral l) (Obj.fromLiteral r))), st))
    ∧ (∀ (fuel : Nat) (st : Interp) (operator : Token) (l r : Literal),
        operator.token_type = .BangEqual →
        evaluate (fuel + 3) st (.Binary (.Literal l) operator (.Literal r))
          = (.ok (.Boolean (!(Obj.eqObj (Obj.fromLiteral l) (Obj.fromLiteral r)))), st)) := by
  refine ⟨?_, fun c c' => rfl, ?_, ?_⟩
  · intro a b h
    cases a <;> cases b <;> first
      | rfl
      | (exact absurd rfl h)
  · intro fuel st operator l r hop
    simp [evaluate, evaluate_binary, hop]
  · intro fuel st operator l r hop
    simp [evaluate, evaluate_binary, hop]

/-- Witness for C9's amended statement: `nil` against `true` is a
cross-variant pair and compares unequal. -/
theorem runtime_equality_by_variant_witness :
    Obj.eqObj .Nil (.Boolean true) = false :=
  runtime_equality_by_variant.1 .Nil (.Boolean true) (by decide)

/-- C2: for every call of a function value with matching argument count:
if the function is not an initializer, the call returns the value carried
by a `Return` signal raised in its body, or `Nil` if the body completes
without returning; if the function is an initializer, both body
fall-through and any `Return` signal make the call return the result of
`get_at(0, "this")` on the function's closure — never the value attached
to the `Return`; runtime errors propagate. -/
theorem lox_function_call_control (fuel : Nat) (st : Interp) (f : LoxFunction)
    (paren : Token) (argv : List Obj)
    (har : argv.length = f.parameters.length) :
    (∀ st', execute_block fuel st f.body
        (bindParams (Env.from_enclosing f.closure) f.parameters argv) = ((.ok ()), st') →
      LoxFunction.call (fuel + 1) st f paren argv =
        (if f.is_initializer then
          (match Environment.get_at st'.heap f.closure 0 (thisToken paren) with
           | some r => (r, st')
           | none => (.error ⟨paren, "MODEL: environment handle escape"⟩, st'))
         else (.ok Obj.Nil, st')))
    ∧ (∀ st' value, execute_block fuel st f.body
        (bindParams (Env.from_enclosing f.closure) f.parameters argv)
          = ((.error (.Ret value)), st') →
      LoxFunction.call (fuel + 1) st f paren argv =
        (if f.is_initializer then
          (match Environment.get_at st'.heap f.closure 0 (thisToken paren) with
           | some r => (r, st')
           | none => (.error ⟨paren, "MODEL: environment handle escape"⟩, st'))
         else (.ok value, st')))
    ∧ (∀ st' err, execute_block fuel st f.body
        (bindParams (Env.from_enclosing f.closure) f.parameters argv)
          = ((.error (.Error err)), st') →
      LoxFunction.call (fuel + 1) st f paren argv = (.error err, st')) := by
  have harity : check_arity f.parameters.length paren argv = .ok () := by
    simp [check_arity, har]
  refine ⟨?_, ?_, ?_⟩
  · intro st' h
    simp [LoxFunction.call, harity, h]
  · intro st' value h
    simp [LoxFunction.call, harity, h]
  · intro st' err h
    simp [LoxFunction.call, harity, h]

/-- Witness for C2: calling the parameterless `f2` (empty body, not an
initializer) allocates its call environment and returns `Nil`. -/
theorem lox_function_call_control_witness :
    LoxFunction.call 3 (Interp.new 0) f2 parenTok [] = (.ok Obj.Nil, st2c2) :=
  (lox_function_call_control 2 (Interp.new 0) f2 parenTok [] rfl).1 st2c2 rfl

/-- C6 counterexample: the native `clock` has arity 0, yet calling it
with one argument does **not** fail with an arity error — it succeeds and
returns the wall clock. -/
theorem clock_arity_unchecked_counterexample :
    CallableObj.arity .Clock = 0
    ∧ evaluate 5 (Interp.new 7)
        (.Call (.Variable clockNameTok) parenTok [.Literal (.Number 1)])
      = (.ok (.Number 7), Interp.new 7) :=
  ⟨rfl, rfl⟩

/-- C6 (amended): a `LoxFunction` call whose argument count differs from
its arity fails with "Expected N arguments but got M." without executing
the body (the state is unchanged); the native `clock` never checks arity
— it ignores its arguments and returns the wall clock. -/
theorem arity_checked_only_for_functions :
    (∀ (fuel : Nat) (st : Interp) (f : LoxFunction) (paren : Token) (argv : List Obj),
        argv.length ≠ f.parameters.length →
        LoxFunction.call (fuel + 1) st f paren argv =
          (.error ⟨paren, "Expected " ++ toString f.parameters.length ++
            " arguments but got " ++ toString argv.length ++ "."⟩, st))
    ∧ (∀ (st : Interp) (paren : Token) (argv : List Obj),
        Clock.call st paren argv = (.ok (.Number (.finite st.clock)), st)) := by
  refine ⟨?_, fun st paren argv => rfl⟩
  intro fuel st f paren argv h
  simp [LoxFunction.call, check_arity, h]

/-- Witness for C6's amended statement: calling the 0-ary `f2` with one
argument fails with the arity message and leaves the state unchanged. -/
theorem arity_checked_only_for_functions_witness :
    LoxFunction.call 1 (Interp.new 0) f2 parenTok [Obj.Nil] =
      (.error ⟨parenTok, "Expected 0 arguments but got 1."⟩, Interp.new 0) :=
  arity_checked_only_for_functions.1 0 (Interp.new 0) f2 parenTok [Obj.Nil] (by decide)

/-- C1, evaluated on the code as written: `LoxInstance::get` returns the
method **unbound** (same function, same closure, no new environment —
`get` does not even touch the heap), and `LoxFunction::bind` mutates the
method's own closure environment in place, so binding `m` for instance
`a` and then for instance `b` overwrites the single shared `this`, and no
fresh environment is ever allocated. -/
theorem bind_mutates_shared_closure :
    LoxInstance.get instA mTok = some (Obj.Callable (.Function mFun))
    ∧ (LoxFunction.bind mFun instA h0c1).1 = mFun
    ∧ (LoxFunction.bind mFun instA h0c1).2
        = [⟨[], none⟩, ⟨[("this", Obj.Instance instA)], some 0⟩]
    ∧ (LoxFunction.bind mFun instB (LoxFunction.bind mFun instA h0c1).2).2
        = [⟨[], none⟩, ⟨[("this", Obj.Instance instB)], some 0⟩]
    ∧ (LoxFunction.bind mFun instA h0c1).2.length = h0c1.length :=
  ⟨rfl, rfl, rfl, rfl, rfl⟩

/-- C4, evaluated on the code as written: scanning the unterminated
string `"abc` reports "Unterminated string" and keeps scanning, but
`had_error` is never set, so `scan_tokens` returns `Ok` with the token
list instead of the error result. -/
theorem unterminated_string_scan :
    (Scanner.scan_tokens 9 (Scanner.new "\"abc")).1
      = .ok [{ token_type := .Eof, lexeme := "\"abc", literal := .None, line := 0 }]
    ∧ (Scanner.scan_tokens 9 (Scanner.new "\"abc")).2.errors
        = ["[line 0] Error : Unterminated string"]
    ∧ (Scanner.scan_tokens 9 (Scanner.new "\"abc")).2.had_error = false :=
  ⟨rfl, rfl, rfl⟩

/-- C3, evaluated on the code as written: parsing `var 1; var 2;` — two
erroneous declarations — reports only the first error and `parse`
returns "no program" immediately (the parser synchronizes to the second
`var` but `parse`'s `.ok()?` aborts there), while the second declaration
parsed alone would report its own error. -/
theorem parse_stops_at_first_error :
    (Parser.parse 99 p3).1 = none
    ∧ (Parser.parse 99 p3).2.errors
        = ["[line 0] Error at \x271\x27: Expect variable name."]
    ∧ (Parser.parse 99 p3).2.current = 3
    ∧ (Parser.declaration 99 p3tail).2.errors
        = ["[line 0] Error at \x272\x27: Expect variable name."] :=
  ⟨rfl, rfl, rfl, rfl⟩

/-- C5, evaluated on the code as written: the `locals` side table is
keyed by the *structural* `Expr`, so the two distinct occurrences of `x`
in `prog5` share one entry — resolving the whole program overwrites the
inner occurrence's depth 1 with the outer occurrence's depth 0, the
evaluator's lookup for the inner occurrence retrieves the outer one's
depth, and running the resolved program fails with the `get_at` internal
error instead of printing `2` and `1`. -/
theorem locals_keyed_structurally :
    (resolve_statement 20 r5 progInner).interpreter.locals = [(varX, 1)]
    ∧ (resolve_statement 20 r5 prog5).interpreter.locals = [(varX, 0)]
    ∧ localsGet (resolve_statement 20 r5 prog5).interpreter.locals varX = some 0
    ∧ (evaluate_stmt 20 (resolve_statement 20 r5 prog5).interpreter prog5).1
        = .error (.Error ⟨xTok, "TODO: couldn\x27t get_at"⟩) :=
  ⟨rfl, rfl, rfl, rfl⟩

end Jlox
